import Mathlib

/-!
Shallow embedding of the core of the openshift-coordination-engine repository:
the layer detector (keyword and ML-enhanced), the multi-layer planner, the
multi-layer orchestrator, the deployment-method detector and the operator
remediator, together with theorems about the behaviour of these components.

Conventions of the embedding:
* Go strings are `String`; Go `float64` confidence values are `ℚ` (every
  confidence constant in the source is a short decimal literal and the only
  operations applied to them are comparisons and `max`, which are exact).
* Go `time.Duration` is `Nat` (nanoseconds).
* Go maps are association lists with insert-or-overwrite update; a read of a
  missing numeric key yields the zero value, as in Go.
* Go pointer-threaded counters (`stepOrder *int`) become explicit state
  passing; functions that can fail return `Option`/`Except`.
* Logging, metrics and timestamps are dropped; the Kubernetes/ML clients are
  abstracted as explicit inputs (a response value, an effect oracle).
-/

/-! ### Association-list helpers (Go maps) -/

/-- Lookup in an association list (Go map read). -/
def alookup {α β : Type} [DecidableEq α] : List (α × β) → α → Option β
  | [], _ => none
  | (k', v) :: rest, k => if k' = k then some v else alookup rest k

/-- Insert-or-overwrite in an association list (Go map write). -/
def aset {α β : Type} [DecidableEq α] : List (α × β) → α → β → List (α × β)
  | [], k, v => [(k, v)]
  | (k', v') :: rest, k, v =>
    if k' = k then (k, v) :: rest else (k', v') :: aset rest k v

theorem alookup_aset_self {α β : Type} [DecidableEq α]
    (m : List (α × β)) (k : α) (v : β) : alookup (aset m k v) k = some v := by
  induction m with
  | nil => simp [aset, alookup]
  | cons hd tl ih =>
    obtain ⟨k', v'⟩ := hd
    by_cases h : k' = k <;> simp [aset, alookup, h, ih]

theorem alookup_aset_ne {α β : Type} [DecidableEq α]
    (m : List (α × β)) (k k' : α) (v : β) (h : k ≠ k') :
    alookup (aset m k v) k' = alookup m k' := by
  induction m with
  | nil => simp [aset, alookup, h]
  | cons hd tl ih =>
    obtain ⟨k₀, v₀⟩ := hd
    by_cases h0 : k₀ = k
    · subst h0
      simp [aset, alookup, h]
    · simp only [aset, if_neg h0, alookup]
      by_cases h1 : k₀ = k' <;> simp [h1, ih]

/-! ### String helpers (Go strings.Contains and friends) -/

/-- Whether `needle` is an initial segment of `hay` (character lists). -/
def listHasPref : List Char → List Char → Bool
  | _, [] => true
  | [], _ :: _ => false
  | a :: as, b :: bs => a == b && listHasPref as bs

/-- Whether `needle` occurs contiguously inside `hay` (character lists). -/
def listHasSub : List Char → List Char → Bool
  | hay, needle =>
    listHasPref hay needle ||
      match hay with
      | [] => false
      | _ :: t => listHasSub t needle

/-- ASCII lower-casing of one character (Go adds 32 to `A`..`Z`; this is what
`inferResourceName` does by hand, and what `strings.ToLower` does on the ASCII
metadata values the detectors compare). -/
def charToLower (c : Char) : Char :=
  if 'A' ≤ c ∧ c ≤ 'Z' then Char.ofNat (c.toNat + 32) else c

/-- Go `strings.ToLower` (ASCII). -/
def strToLower (s : String) : String :=
  ⟨s.toList.map charToLower⟩

/-- Go `strings.Contains s sub` (also the hand-rolled `contains` helper of the
ML layer detector, which scans for a contiguous occurrence). -/
def strContains (s sub : String) : Bool :=
  listHasSub s.toList sub.toList

/-- Go `strings.Contains text keyword` for any keyword in the list
(the `containsAny` helper of the ML layer detector). -/
def containsAnyStr (text : String) (keywords : List String) : Bool :=
  keywords.any (fun k => strContains text k)

/-! ### pkg/models/issue.go : layers, resources, layered issues -/

/-- Go `models.Layer` is a string type. -/
abbrev Layer := String

def LayerInfrastructure : Layer := "infrastructure"

def LayerPlatform : Layer := "platform"

def LayerApplication : Layer := "application"

/-- `Layer.Priority`: remediation priority (lower number = higher priority). -/
def layerPriority (l : Layer) : Nat :=
  if l = LayerInfrastructure then 0
  else if l = LayerPlatform then 1
  else if l = LayerApplication then 2
  else 99

/-- Go `models.Resource`: an impacted Kubernetes resource. -/
structure Resource where
  kind : String
  name : String
  ns : String
  issue : String
deriving Repr, DecidableEq

/-- Go `models.LayerPrediction` (ML prediction details for one layer). -/
structure LayerPrediction where
  affected : Bool
  probability : ℚ
  evidence : List String
  isRootCause : Bool
deriving Repr, DecidableEq

/-- Go `models.MLLayerPredictions`. -/
structure MLLayerPredictions where
  infrastructure : Option LayerPrediction
  platform : Option LayerPrediction
  application : Option LayerPrediction
  rootCauseSuggestion : Layer
  confidence : ℚ
  analysisType : String
deriving Repr, DecidableEq

/-- Go `models.LayeredIssue` (the `DetectedAt` timestamp is dropped). -/
structure LayeredIssue where
  id : String
  description : String
  affectedLayers : List Layer
  rootCauseLayer : Layer
  impactedResources : List (Layer × List Resource)
  severity : String
  mlPredictions : Option MLLayerPredictions
  layerConfidence : List (Layer × ℚ)
  detectionMethod : String
  historicalPattern : String
deriving Repr, DecidableEq

/-- Go `models.NewLayeredIssue`. -/
def NewLayeredIssue (id description : String) (rootCauseLayer : Layer) : LayeredIssue :=
  { id := id
    description := description
    rootCauseLayer := rootCauseLayer
    affectedLayers := [rootCauseLayer]
    impactedResources := []
    severity := "medium"
    mlPredictions := none
    layerConfidence := []
    detectionMethod := "keyword"
    historicalPattern := "" }

/-- Go `LayeredIssue.AddAffectedLayer`: append the layer unless already present. -/
def LayeredIssue.AddAffectedLayer (li : LayeredIssue) (layer : Layer) : LayeredIssue :=
  if layer ∈ li.affectedLayers then li
  else { li with affectedLayers := li.affectedLayers ++ [layer] }

/-- Go `LayeredIssue.AddImpactedResource`: append the resource to the layer's list. -/
def LayeredIssue.AddImpactedResource (li : LayeredIssue) (layer : Layer) (r : Resource) :
    LayeredIssue :=
  let cur := (alookup li.impactedResources layer).getD []
  { li with impactedResources := aset li.impactedResources layer (cur ++ [r]) }

/-- Go `LayeredIssue.GetResourcesForLayer`. -/
def LayeredIssue.GetResourcesForLayer (li : LayeredIssue) (layer : Layer) : List Resource :=
  (alookup li.impactedResources layer).getD []

/-!
Go `LayeredIssue.GetLayersByPriority` sorts a copy of the affected layers
in place with a nested-loop exchange sort:
for each `i`, for each `j > i`, swap `layers[i], layers[j]` when
`layers[i].Priority() > layers[j].Priority()`.
The inner loop with pivot position `i` is modelled by `exchangePass cur l`,
which returns the final value at position `i` (the running minimum) together
with the final suffix (each compared element replaced by the larger of the
pair); the outer loop then recurses on the suffix.
-/

/-- One inner pass of the exchange sort with current pivot value `cur`. -/
def exchangePass (cur : Layer) : List Layer → Layer × List Layer
  | [] => (cur, [])
  | y :: ys =>
    if layerPriority cur > layerPriority y then
      let (m, ys') := exchangePass y ys
      (m, cur :: ys')
    else
      let (m, ys') := exchangePass cur ys
      (m, y :: ys')

theorem exchangePass_length (cur : Layer) (l : List Layer) :
    (exchangePass cur l).2.length = l.length := by
  induction l generalizing cur with
  | nil => simp [exchangePass]
  | cons y ys ih =>
    simp only [exchangePass]
    split <;> simp [ih]

/-- The outer loop of the exchange sort, with an explicit iteration bound
(the Go loop runs once per index; the suffix shrinks by one per pass and
`exchangePass` preserves length, so `fuel = length` suffices). -/
def exchangeSortGo : Nat → List Layer → List Layer
  | 0, l => l
  | _ + 1, [] => []
  | fuel + 1, x :: xs =>
    (exchangePass x xs).1 :: exchangeSortGo fuel (exchangePass x xs).2

/-- The nested-loop exchange sort of `GetLayersByPriority`. -/
def exchangeSort (l : List Layer) : List Layer :=
  exchangeSortGo l.length l

/-- Go `LayeredIssue.GetLayersByPriority`. -/
def LayeredIssue.GetLayersByPriority (li : LayeredIssue) : List Layer :=
  exchangeSort li.affectedLayers

/-! ### internal/coordination layer_detector.go : keyword layer detection -/

def infrastructureKeywords : List String :=
  ["node", "machineconfig", "mco", "kubelet",
   "memory pressure", "disk pressure", "pid pressure",
   "os", "kernel", "systemd", "coreos",
   "notready", "networkunavailable"]

def platformKeywords : List String :=
  ["operator", "sdn", "networking", "ovn",
   "storage", "csi", "ingress", "router",
   "api server", "controller manager", "scheduler",
   "clusteroperator", "degraded", "progressing"]

def applicationKeywords : List String :=
  ["pod", "deployment", "replicaset", "statefulset",
   "crashloop", "imagepull", "container", "oom",
   "application", "service", "endpoint",
   "crashloopbackoff", "imagepullbackoff"]

/-- Go `LayerDetector.hasInfrastructureIssues`. -/
def hasInfrastructureIssues (description : String) (resources : List Resource) : Bool :=
  containsAnyStr (strToLower description) infrastructureKeywords ||
    resources.any (fun r =>
      r.kind == "Node" || r.kind == "MachineConfig" || r.kind == "MachineConfigPool")

/-- Go `LayerDetector.hasPlatformIssues`. -/
def hasPlatformIssues (description : String) (resources : List Resource) : Bool :=
  containsAnyStr (strToLower description) platformKeywords ||
    resources.any (fun r =>
      r.kind == "ClusterOperator" || strContains r.kind "Operator" ||
        r.kind == "NetworkPolicy")

/-- Go `LayerDetector.hasApplicationIssues`. -/
def hasApplicationIssues (description : String) (resources : List Resource) : Bool :=
  containsAnyStr (strToLower description) applicationKeywords ||
    resources.any (fun r =>
      r.kind == "Pod" || r.kind == "Deployment" || r.kind == "StatefulSet" ||
        r.kind == "DaemonSet" || r.kind == "ReplicaSet")

/-- Go `LayerDetector.determineInitialLayer`. -/
def determineInitialLayer (description : String) (resources : List Resource) : Layer :=
  if hasInfrastructureIssues description resources then LayerInfrastructure
  else if hasPlatformIssues description resources then LayerPlatform
  else LayerApplication

/-- Go `LayerDetector.determineRootCause`: the lowest affected layer wins,
defaulting to application. -/
def determineRootCause (affectedLayers : List Layer) : Layer :=
  if affectedLayers = [] then LayerApplication
  else if LayerInfrastructure ∈ affectedLayers then LayerInfrastructure
  else if LayerPlatform ∈ affectedLayers then LayerPlatform
  else LayerApplication

/-- Go `LayerDetector.resourceToLayer`. -/
def resourceToLayer (r : Resource) : Layer :=
  if r.kind = "Node" ∨ r.kind = "MachineConfig" ∨ r.kind = "MachineConfigPool" then
    LayerInfrastructure
  else if r.kind = "ClusterOperator" ∨ r.kind = "NetworkPolicy" then LayerPlatform
  else if strContains r.kind "Operator" then LayerPlatform
  else LayerApplication

/-- Go `LayerDetector.groupAndAddResources`. -/
def groupAndAddResources (li : LayeredIssue) (resources : List Resource) : LayeredIssue :=
  resources.foldl (fun acc r => acc.AddImpactedResource (resourceToLayer r) r) li

/-- Go `LayerDetector.DetectLayers` (context, logging and metrics dropped). -/
def DetectLayers (issueID issueDescription : String) (resources : List Resource) :
    LayeredIssue :=
  let rootCauseLayer := determineInitialLayer issueDescription resources
  let li := NewLayeredIssue issueID issueDescription rootCauseLayer
  let li := if hasInfrastructureIssues issueDescription resources then
      li.AddAffectedLayer LayerInfrastructure else li
  let li := if hasPlatformIssues issueDescription resources then
      li.AddAffectedLayer LayerPlatform else li
  let li := if hasApplicationIssues issueDescription resources then
      li.AddAffectedLayer LayerApplication else li
  let li := { li with rootCauseLayer := determineRootCause li.affectedLayers }
  groupAndAddResources li resources

/-! ### internal/coordination ml_layer_detector.go : ML-enhanced layer detection -/

/-- Go `integrations.Pattern` (the fields consulted by the detector). -/
structure Pattern where
  type : String
  description : String
  confidence : ℚ
deriving Repr, DecidableEq

/-- Go `integrations.PatternAnalysisResponse.Summary`. -/
structure PatternAnalysisSummary where
  patternsFound : Nat
  confidence : ℚ
deriving Repr, DecidableEq

/-- Go `integrations.PatternAnalysisResponse`. -/
structure PatternAnalysisResponse where
  patterns : List Pattern
  insights : List String
  summary : PatternAnalysisSummary
deriving Repr, DecidableEq

/-- Go helper `maxFloat64`. -/
def maxFloat64 (a b : ℚ) : ℚ :=
  if a > b then a else b

/-- `MLLayerDetector.probabilityThreshold` (set in `NewMLLayerDetector`). -/
def probabilityThreshold : ℚ := 0.75

/-- `MLLayerDetector.rootCauseConfidenceThreshold` (set in `NewMLLayerDetector`). -/
def rootCauseConfidenceThreshold : ℚ := 0.85

/-- Go `MLLayerDetector.patternMatchesLayer`. -/
def patternMatchesLayer (pattern : Pattern) (layer : Layer) : Bool :=
  let description := pattern.description ++ " " ++ pattern.type
  if layer = LayerInfrastructure then
    containsAnyStr description ["infrastructure", "node", "mco", "machine", "kernel", "os"]
  else if layer = LayerPlatform then
    containsAnyStr description
      ["platform", "operator", "sdn", "networking", "storage", "cluster"]
  else if layer = LayerApplication then
    containsAnyStr description ["application", "pod", "deployment", "container", "workload"]
  else false

/-- Go `MLLayerDetector.resourceMatchesLayer`. -/
def resourceMatchesLayer (r : Resource) (layer : Layer) : Bool :=
  if layer = LayerInfrastructure then
    r.kind == "Node" || r.kind == "MachineConfig" || r.kind == "MachineConfigPool"
  else if layer = LayerPlatform then
    r.kind == "ClusterOperator" || r.kind == "NetworkPolicy"
  else if layer = LayerApplication then
    r.kind == "Pod" || r.kind == "Deployment" || r.kind == "StatefulSet"
  else false

/-- Go `MLLayerDetector.calculateLayerProbability`. -/
def calculateLayerProbability (resp : PatternAnalysisResponse) (layer : Layer)
    (resources : List Resource) : ℚ :=
  let baseProbability := resp.patterns.foldl
    (fun acc p => if patternMatchesLayer p layer then maxFloat64 acc p.confidence else acc)
    resp.summary.confidence
  let layerMentioned := resp.patterns.any (fun p => patternMatchesLayer p layer)
  if ¬ layerMentioned then
    if resources.any (fun r => resourceMatchesLayer r layer) then 0.70 else 0.0
  else baseProbability

/-- Go `containsLayer`. -/
def containsLayer (text : String) (layer : Layer) : Bool :=
  strContains text layer

/-- Go `MLLayerDetector.extractEvidence`. -/
def extractEvidence (resp : PatternAnalysisResponse) (layer : Layer) : List String :=
  (resp.insights.filter (fun insight => containsLayer insight layer)) ++
    ((resp.patterns.filter (fun p => patternMatchesLayer p layer)).map (fun p => p.type))

/-- Go `MLLayerDetector.determineMLRootCause`: highest probability wins,
defaulting to application. -/
def determineMLRootCause (infraProb platformProb appProb : ℚ) : Layer :=
  let maxProb := maxFloat64 infraProb (maxFloat64 platformProb appProb)
  if maxProb = infraProb ∧ infraProb > 0 then LayerInfrastructure
  else if maxProb = platformProb ∧ platformProb > 0 then LayerPlatform
  else LayerApplication

/-- Go `MLLayerDetector.parseMLResponse`. -/
def parseMLResponse (resp : PatternAnalysisResponse) (resources : List Resource) :
    MLLayerPredictions :=
  let infraProb := calculateLayerProbability resp LayerInfrastructure resources
  let platformProb := calculateLayerProbability resp LayerPlatform resources
  let appProb := calculateLayerProbability resp LayerApplication resources
  let infra : Option LayerPrediction := if infraProb > 0.0 then
      some { affected := infraProb > probabilityThreshold
             probability := infraProb
             evidence := extractEvidence resp LayerInfrastructure
             isRootCause := false }
    else none
  let platf : Option LayerPrediction := if platformProb > 0.0 then
      some { affected := platformProb > probabilityThreshold
             probability := platformProb
             evidence := extractEvidence resp LayerPlatform
             isRootCause := false }
    else none
  let app : Option LayerPrediction := if appProb > 0.0 then
      some { affected := appProb > probabilityThreshold
             probability := appProb
             evidence := extractEvidence resp LayerApplication
             isRootCause := false }
    else none
  let suggestion := determineMLRootCause infraProb platformProb appProb
  let infra := if suggestion = LayerInfrastructure then
      infra.map (fun p => { p with isRootCause := true }) else infra
  let platf := if suggestion = LayerPlatform then
      platf.map (fun p => { p with isRootCause := true }) else platf
  let app := if suggestion = LayerApplication then
      app.map (fun p => { p with isRootCause := true }) else app
  { infrastructure := infra
    platform := platf
    application := app
    rootCauseSuggestion := suggestion
    confidence := resp.summary.confidence
    analysisType := "pattern" }

/-- One per-layer block of `enhanceWithMLPredictions` (the Go source repeats
this block verbatim for infrastructure, platform and application): when the
layer's ML prediction marks it affected, add it to the affected layers and
raise its confidence to the max of the keyword confidence and the ML
probability. -/
def enhanceLayer (issue : LayeredIssue) (layer : Layer) (pred : Option LayerPrediction) :
    LayeredIssue :=
  match pred with
  | some p =>
    if p.affected then
      let issue := issue.AddAffectedLayer layer
      let keywordConf := (alookup issue.layerConfidence layer).getD 0
      let newConf := maxFloat64 keywordConf p.probability
      { issue with layerConfidence := aset issue.layerConfidence layer newConf }
    else issue
  | none => issue

/-- Go `MLLayerDetector.enhanceWithMLPredictions`: merge ML predictions into
the keyword-based issue, then adopt the ML root cause when the overall ML
confidence reaches the threshold. -/
def enhanceWithMLPredictions (issue : LayeredIssue) (mlPred : MLLayerPredictions) :
    LayeredIssue :=
  let issue := { issue with mlPredictions := some mlPred }
  let issue := enhanceLayer issue LayerInfrastructure mlPred.infrastructure
  let issue := enhanceLayer issue LayerPlatform mlPred.platform
  let issue := enhanceLayer issue LayerApplication mlPred.application
  let issue := if mlPred.rootCauseSuggestion.length > 0 then
      { issue with historicalPattern := mlPred.rootCauseSuggestion ++ "_pattern" }
    else issue
  if mlPred.confidence ≥ rootCauseConfidenceThreshold then
    { issue with rootCauseLayer := mlPred.rootCauseSuggestion }
  else issue

/-- Go `MLLayerDetector.DetectLayersWithML`.  The outcome of the ML pattern
analysis call is an explicit input: `none` models a failed/unavailable call
(silent fallback to the keyword result), `some resp` a successful response. -/
def DetectLayersWithML (enableML : Bool) (issueID issueDescription : String)
    (resources : List Resource) (mlResponse : Option PatternAnalysisResponse) :
    LayeredIssue :=
  let li := DetectLayers issueID issueDescription resources
  let li := { li with detectionMethod := "keyword" }
  let li := { li with layerConfidence :=
      li.affectedLayers.foldl (fun m layer => aset m layer 0.70) li.layerConfidence }
  if ¬ enableML then li
  else
    match mlResponse with
    | none => li
    | some resp =>
      let mlPredictions := parseMLResponse resp resources
      let li := enhanceWithMLPredictions li mlPredictions
      { li with detectionMethod := "ml_enhanced" }

/-! ### internal/detector deployment_detector.go : deployment-method detection -/

def DeploymentMethodArgoCD : String := "argocd"

def DeploymentMethodHelm : String := "helm"

def DeploymentMethodOperator : String := "operator"

def DeploymentMethodManual : String := "manual"

def DeploymentMethodUnknown : String := "unknown"

def ConfidenceArgoCD : ℚ := 0.95

def ConfidenceHelm : ℚ := 0.90

def ConfidenceOperator : ℚ := 0.80

def ConfidenceManual : ℚ := 0.60

def ArgoCDTrackingAnnotation : String := "argocd.argoproj.io/tracking-id"

def ArgoCDInstanceLabel : String := "argocd.argoproj.io/instance"

def HelmReleaseNameAnnotation : String := "meta.helm.sh/release-name"

def HelmReleaseNamespaceAnnotation : String := "meta.helm.sh/release-namespace"

def HelmChartLabel : String := "helm.sh/chart"

def ManagedByLabel : String := "app.kubernetes.io/managed-by"

/-- Go `models.DeploymentInfo` (the `DetectedAt` timestamp is dropped). -/
structure DeploymentInfo where
  method : String
  confidence : ℚ
  source : String
  details : List (String × String)
  ns : String
  resourceName : String
  resourceKind : String
deriving Repr, DecidableEq

/-- Go `models.NewDeploymentInfo`. -/
def NewDeploymentInfo (ns resourceName resourceKind method : String) (confidence : ℚ) :
    DeploymentInfo :=
  { method := method
    confidence := confidence
    source := ""
    details := []
    ns := ns
    resourceName := resourceName
    resourceKind := resourceKind }

/-- Go `DeploymentInfo.SetDetail`. -/
def DeploymentInfo.SetDetail (d : DeploymentInfo) (key value : String) : DeploymentInfo :=
  { d with details := aset d.details key value }

/-- Go `isOperatorManager`: substring patterns first, then the exact
allowlist of well-known operators. -/
def isOperatorManager (managedBy : String) : Bool :=
  let managedByLower := strToLower managedBy
  let operatorPatterns : List String := ["operator", ".operator", "-operator"]
  if operatorPatterns.any (fun p => strContains managedByLower p) then true
  else
    let knownOperators : List String :=
      ["prometheus-operator", "etcd-operator", "mysql-operator", "postgres-operator",
       "redis-operator", "kafka-operator", "elastic-operator", "mongodb-operator"]
    knownOperators.any (fun op => managedByLower == op)

/-- The lower-priority remainder of `detectFromMetadata`'s classification
chain (fallback ArgoCD instance label, Helm, operator, manual). -/
def detectFromMetadataFallback (annotations labels : List (String × String))
    (ns resourceName resourceKind : String) : DeploymentInfo :=
  let argoLabel := (alookup labels ArgoCDInstanceLabel).getD ""
  if argoLabel ≠ "" then
    let info := NewDeploymentInfo ns resourceName resourceKind DeploymentMethodArgoCD
      ConfidenceArgoCD
    let info := { info with source := "label:" ++ ArgoCDInstanceLabel }
    info.SetDetail "argocd_app" argoLabel
  else
    let releaseName := (alookup annotations HelmReleaseNameAnnotation).getD ""
    if releaseName ≠ "" then
      let info := NewDeploymentInfo ns resourceName resourceKind DeploymentMethodHelm
        ConfidenceHelm
      let info := { info with source := "annotation:" ++ HelmReleaseNameAnnotation }
      let info := info.SetDetail "release_name" releaseName
      let info := match alookup annotations HelmReleaseNamespaceAnnotation with
        | some releaseNamespace => info.SetDetail "release_namespace" releaseNamespace
        | none => info
      match alookup labels HelmChartLabel with
      | some chart => info.SetDetail "chart" chart
      | none => info
    else
      let managedBy := (alookup labels ManagedByLabel).getD ""
      if managedBy ≠ "" ∧ managedBy ≠ "Helm" ∧
          ¬ strContains (strToLower managedBy) "helm" ∧ isOperatorManager managedBy then
        let info := NewDeploymentInfo ns resourceName resourceKind
          DeploymentMethodOperator ConfidenceOperator
        let info := { info with source := "label:" ++ ManagedByLabel }
        let info := info.SetDetail "operator" managedBy
        let info := info.SetDetail "managed_by" managedBy
        match alookup labels "app.kubernetes.io/name" with
        | some operatorName => info.SetDetail "operator_name" operatorName
        | none => info
      else
        let info := NewDeploymentInfo ns resourceName resourceKind
          DeploymentMethodManual ConfidenceManual
        let info := { info with source := "default" }
        let info := info.SetDetail "reason" "no deployment method indicators found"
        let info := match alookup labels "app" with
          | some appName => info.SetDetail "app" appName
          | none => info
        match alookup labels "version" with
        | some version => info.SetDetail "version" version
        | none => info

/-- Go `DeploymentDetector.detectFromMetadata`: the priority-ordered
classification of a workload's deployment method. -/
def detectFromMetadata (annotations labels : List (String × String))
    (ns resourceName resourceKind : String) : DeploymentInfo :=
  match alookup annotations ArgoCDTrackingAnnotation with
  | some trackingID =>
    if trackingID ≠ "" then
      let info := NewDeploymentInfo ns resourceName resourceKind DeploymentMethodArgoCD
        ConfidenceArgoCD
      let info := { info with source := "annotation:" ++ ArgoCDTrackingAnnotation }
      let info := info.SetDetail "tracking_id" trackingID
      let info := match alookup labels ArgoCDInstanceLabel with
        | some appName => info.SetDetail "app_name" appName
        | none => info
      match alookup labels "app.kubernetes.io/instance" with
      | some appName => info.SetDetail "argocd_app" appName
      | none => info
    else detectFromMetadataFallback annotations labels ns resourceName resourceKind
  | none => detectFromMetadataFallback annotations labels ns resourceName resourceKind

/-! ### pkg/models/remediation_plan.go : plans, steps, checkpoints -/

/-- Go `time.Minute` in nanoseconds (`time.Duration`). -/
def timeMinute : Nat := 60000000000

/-- Go `models.RemediationStep`. -/
structure RemediationStep where
  layer : Layer
  order : Nat
  description : String
  actionType : String
  target : String
  waitTime : Nat
  required : Bool
  metadata : List (String × String)
deriving Repr, DecidableEq

/-- Go `models.HealthCheckpoint`. -/
structure HealthCheckpoint where
  layer : Layer
  afterStep : Nat
  checks : List String
  timeout : Nat
  required : Bool
deriving Repr, DecidableEq

/-- Go `models.RemediationPlan` (the `CreatedAt` timestamp is dropped). -/
structure RemediationPlan where
  id : String
  issueID : String
  layers : List Layer
  steps : List RemediationStep
  checkpoints : List HealthCheckpoint
  rollbackSteps : List RemediationStep
  status : String
  currentStep : Nat
deriving Repr, DecidableEq

/-- Go `models.NewRemediationPlan` (the time-derived id is a placeholder;
`GeneratePlan` overwrites it with its own plan id). -/
def NewRemediationPlan (issueID : String) (layers : List Layer) : RemediationPlan :=
  { id := ""
    issueID := issueID
    layers := layers
    steps := []
    checkpoints := []
    rollbackSteps := []
    status := "pending"
    currentStep := 0 }

/-- Go `RemediationPlan.AddStep`: auto-assign the order only when unset. -/
def RemediationPlan.AddStep (rp : RemediationPlan) (step : RemediationStep) :
    RemediationPlan :=
  let step := if step.order = 0 then { step with order := rp.steps.length + 1 } else step
  { rp with steps := rp.steps ++ [step] }

/-- Go `RemediationPlan.AddCheckpoint`. -/
def RemediationPlan.AddCheckpoint (rp : RemediationPlan) (checkpoint : HealthCheckpoint) :
    RemediationPlan :=
  { rp with checkpoints := rp.checkpoints ++ [checkpoint] }

/-- Go `RemediationPlan.AddRollbackStep`. -/
def RemediationPlan.AddRollbackStep (rp : RemediationPlan) (step : RemediationStep) :
    RemediationPlan :=
  { rp with rollbackSteps := rp.rollbackSteps ++ [step] }

/-- Go `RemediationPlan.GetCheckpointAfterStep`: first checkpoint whose
`after_step` equals the given order. -/
def RemediationPlan.GetCheckpointAfterStep (rp : RemediationPlan) (stepOrder : Nat) :
    Option HealthCheckpoint :=
  rp.checkpoints.find? (fun cp => cp.afterStep == stepOrder)

/-! ### internal/coordination multi_layer_planner.go -/

/-- Go `MultiLayerPlanner.generateInfrastructureSteps` (the `stepOrder *int`
counter is threaded explicitly). -/
def generateInfrastructureSteps : List Resource → Nat → List RemediationStep × Nat
  | [], stepOrder => ([], stepOrder)
  | r :: rest, stepOrder =>
    if r.kind = "Node" then
      let step : RemediationStep :=
        { layer := LayerInfrastructure
          order := stepOrder
          description := "Monitor MCO rollout for node " ++ r.name
          actionType := "monitor_mco"
          target := r.name
          waitTime := 5 * timeMinute
          required := true
          metadata := [("node", r.name)] }
      let (steps, o) := generateInfrastructureSteps rest (stepOrder + 1)
      (step :: steps, o)
    else if r.kind = "MachineConfig" then
      let step : RemediationStep :=
        { layer := LayerInfrastructure
          order := stepOrder
          description := "Monitor MachineConfig " ++ r.name ++ " application"
          actionType := "monitor_machineconfig"
          target := r.name
          waitTime := 10 * timeMinute
          required := true
          metadata := [("machineconfig", r.name)] }
      let (steps, o) := generateInfrastructureSteps rest (stepOrder + 1)
      (step :: steps, o)
    else if r.kind = "MachineConfigPool" then
      let step : RemediationStep :=
        { layer := LayerInfrastructure
          order := stepOrder
          description := "Monitor MachineConfigPool " ++ r.name ++ " update"
          actionType := "monitor_mcp"
          target := r.name
          waitTime := 15 * timeMinute
          required := true
          metadata := [("mcp", r.name)] }
      let (steps, o) := generateInfrastructureSteps rest (stepOrder + 1)
      (step :: steps, o)
    else generateInfrastructureSteps rest stepOrder

/-- Go `MultiLayerPlanner.generatePlatformSteps`: a resource whose kind
contains "Operator" yields a reconciliation step, and a `ClusterOperator`
additionally yields a monitor step (two independent `if`s in the source). -/
def generatePlatformSteps : List Resource → Nat → List RemediationStep × Nat
  | [], stepOrder => ([], stepOrder)
  | r :: rest, stepOrder =>
    let (opSteps, o1) :=
      if strContains r.kind "Operator" then
        ([({ layer := LayerPlatform
             order := stepOrder
             description := "Trigger reconciliation for " ++ r.name
             actionType := "trigger_operator_reconciliation"
             target := r.ns ++ "/" ++ r.name
             waitTime := 3 * timeMinute
             required := true
             metadata := [("operator", r.name), ("namespace", r.ns)] } : RemediationStep)],
          stepOrder + 1)
      else ([], stepOrder)
    let (coSteps, o2) :=
      if r.kind = "ClusterOperator" then
        ([({ layer := LayerPlatform
             order := o1
             description := "Monitor ClusterOperator " ++ r.name ++ " status"
             actionType := "monitor_clusteroperator"
             target := r.name
             waitTime := 5 * timeMinute
             required := true
             metadata := [("clusteroperator", r.name)] } : RemediationStep)], o1 + 1)
      else ([], o1)
    let (steps, o) := generatePlatformSteps rest o2
    (opSteps ++ coSteps ++ steps, o)

/-- Go `MultiLayerPlanner.generateApplicationSteps`. -/
def generateApplicationSteps : List Resource → Nat → List RemediationStep × Nat
  | [], stepOrder => ([], stepOrder)
  | r :: rest, stepOrder =>
    if r.kind = "Pod" then
      let step : RemediationStep :=
        { layer := LayerApplication
          order := stepOrder
          description := "Restart pod " ++ r.ns ++ "/" ++ r.name
          actionType := "restart_pod"
          target := r.ns ++ "/" ++ r.name
          waitTime := 2 * timeMinute
          required := false
          metadata := [("pod", r.name), ("namespace", r.ns)] }
      let (steps, o) := generateApplicationSteps rest (stepOrder + 1)
      (step :: steps, o)
    else if r.kind = "Deployment" then
      let step : RemediationStep :=
        { layer := LayerApplication
          order := stepOrder
          description := "Restart deployment " ++ r.ns ++ "/" ++ r.name
          actionType := "restart_deployment"
          target := r.ns ++ "/" ++ r.name
          waitTime := 2 * timeMinute
          required := false
          metadata := [("deployment", r.name), ("namespace", r.ns)] }
      let (steps, o) := generateApplicationSteps rest (stepOrder + 1)
      (step :: steps, o)
    else if r.kind = "StatefulSet" then
      let step : RemediationStep :=
        { layer := LayerApplication
          order := stepOrder
          description := "Restart StatefulSet " ++ r.ns ++ "/" ++ r.name
          actionType := "restart_statefulset"
          target := r.ns ++ "/" ++ r.name
          waitTime := 3 * timeMinute
          required := false
          metadata := [("statefulset", r.name), ("namespace", r.ns)] }
      let (steps, o) := generateApplicationSteps rest (stepOrder + 1)
      (step :: steps, o)
    else generateApplicationSteps rest stepOrder

/-- Go `MultiLayerPlanner.generateStepsForLayer` (a `switch` with no default). -/
def generateStepsForLayer (layer : Layer) (resources : List Resource) (stepOrder : Nat) :
    List RemediationStep × Nat :=
  if layer = LayerInfrastructure then generateInfrastructureSteps resources stepOrder
  else if layer = LayerPlatform then generatePlatformSteps resources stepOrder
  else if layer = LayerApplication then generateApplicationSteps resources stepOrder
  else ([], stepOrder)

/-- The `lastStepPerLayer` map built inside `generateCheckpoints`. -/
def lastStepPerLayer (steps : List RemediationStep) : List (Layer × Nat) :=
  steps.foldl (fun m s => aset m s.layer s.order) []

/-- The layer-specific check labels assigned in `generateCheckpoints`. -/
def checkpointChecks (layer : Layer) : List String :=
  if layer = LayerInfrastructure then
    ["nodes_ready", "mco_stable", "storage_available", "system_pods_running"]
  else if layer = LayerPlatform then
    ["operators_ready", "clusteroperators_available", "networking_functional",
     "ingress_available"]
  else if layer = LayerApplication then
    ["pods_running", "deployments_ready", "endpoints_healthy", "services_responding"]
  else []

/-- Go `MultiLayerPlanner.generateCheckpoints`: one checkpoint after each
layer's last step, skipping layers without steps. -/
def generateCheckpoints (layers : List Layer) (steps : List RemediationStep) :
    List HealthCheckpoint :=
  let m := lastStepPerLayer steps
  layers.filterMap (fun layer =>
    match alookup m layer with
    | none => none
    | some lastStep =>
      some { layer := layer
             afterStep := lastStep
             checks := checkpointChecks layer
             timeout := 10 * timeMinute
             required := true })

/-- Go `MultiLayerPlanner.generateRollbackSteps`: iterate the forward steps
from the last to the first, emitting `rollback_`-prefixed mirrors with
orders `1..N`. -/
def generateRollbackSteps (steps : List RemediationStep) : List RemediationStep :=
  let n := steps.length
  (steps.enum.reverse).map (fun p =>
    { layer := p.2.layer
      order := n - p.1
      description := "Rollback: " ++ p.2.description
      actionType := "rollback_" ++ p.2.actionType
      target := p.2.target
      waitTime := p.2.waitTime
      required := p.2.required
      metadata := p.2.metadata })

/-- The per-layer step-generation loop of `GeneratePlan`, threading the
`stepOrder` counter. -/
def planStepsForLayers (issue : LayeredIssue) : List Layer → Nat →
    List RemediationStep × Nat
  | [], stepOrder => ([], stepOrder)
  | layer :: rest, stepOrder =>
    let (layerSteps, o1) :=
      generateStepsForLayer layer (issue.GetResourcesForLayer layer) stepOrder
    let (moreSteps, o2) := planStepsForLayers issue rest o1
    (layerSteps ++ moreSteps, o2)

/-- Go `MultiLayerPlanner.GeneratePlan` (the random plan id is a parameter;
the function never returns an error). -/
def GeneratePlan (planID : String) (issue : LayeredIssue) : RemediationPlan :=
  let orderedLayers := issue.GetLayersByPriority
  let plan := NewRemediationPlan issue.id orderedLayers
  let plan := { plan with id := planID }
  let (allSteps, _) := planStepsForLayers issue orderedLayers 1
  let plan := allSteps.foldl RemediationPlan.AddStep plan
  let plan := (generateCheckpoints orderedLayers plan.steps).foldl
    RemediationPlan.AddCheckpoint plan
  (generateRollbackSteps plan.steps).foldl RemediationPlan.AddRollbackStep plan

/-! ### internal/coordination/orchestrator.go -/

/-- Go `ExecutionResult` (the `CompletedAt` timestamp is dropped). -/
structure ExecutionResult where
  status : String
  reason : String
  executedSteps : Nat
  failedStep : Option Nat
deriving Repr, DecidableEq

/-- Observable cluster-facing effects of plan execution:
`appRemediate` is the detector+selector dispatch of an application step
(the only step kind that touches workloads), `monitorOnly` the passive
infra/platform monitoring, `checkpointVerify` a health-checker invocation
under a child context carrying the checkpoint timeout, and `rollbackStep`
one entry of the coordinated rollback loop. -/
inductive ExecEvent where
  | appRemediate (ns name kind issueType : String)
  | monitorOnly (actionType target : String)
  | checkpointVerify (layer : Layer) (timeout : Nat)
  | rollbackStep (order : Nat)
deriving Repr, DecidableEq

/-- Environment of a plan execution: the outcome of application-step
remediation and of the per-layer health checks, plus whether the owning
context is already cancelled when execution starts. -/
structure ExecEnv where
  stepError : RemediationStep → Option String
  checkError : Layer → Option String
  ctxCancelled : Bool

/-- The character loop of Go `splitTarget`/`splitAPIVersion`: scan for `/`,
flushing the non-empty current segment at each separator and at the end. -/
def splitSlashGo : List Char → String → List String → List String
  | [], current, acc => if current ≠ "" then acc ++ [current] else acc
  | c :: cs, current, acc =>
    if c = '/' then
      if current ≠ "" then splitSlashGo cs "" (acc ++ [current]) else splitSlashGo cs "" acc
    else splitSlashGo cs (current.push c) acc

/-- Go `splitTarget`: split on `/`, keeping non-empty segments. -/
def splitTarget (target : String) : List String :=
  splitSlashGo target.toList "" []

/-- Go `parseTarget`: expects exactly `namespace/name`. -/
def parseTarget (target : String) : Option (String × String) :=
  match splitTarget target with
  | [a, b] => some (a, b)
  | _ => none

/-- Go `mapActionTypeToIssueType`. -/
def mapActionTypeToIssueType (actionType : String) : String :=
  if actionType = "restart_pod" then "pod_crash_loop"
  else if actionType = "restart_deployment" then "deployment_not_ready"
  else if actionType = "restart_statefulset" then "statefulset_not_ready"
  else "generic_issue"

/-- Go `MultiLayerOrchestrator.executeApplicationStep`: parse the target,
derive the resource kind from the step metadata, detect the deployment
method (failures degrade to unknown/0.5) and dispatch the strategy
selector.  The detector/selector outcome is `env.stepError`. -/
def executeApplicationStep (env : ExecEnv) (step : RemediationStep) :
    Option String × List ExecEvent :=
  match parseTarget step.target with
  | none => (some "invalid target format", [])
  | some (ns, resourceName) =>
    let resourceKind :=
      let k := (alookup step.metadata "deployment").getD ""
      let k := if k = "" then (alookup step.metadata "statefulset").getD "" else k
      let k := if k = "" then (alookup step.metadata "pod").getD "" else k
      if k = "" then "Deployment" else k
    let issueType := mapActionTypeToIssueType step.actionType
    (((env.stepError step).map (fun e => "application remediation failed: " ++ e)),
      [ExecEvent.appRemediate ns resourceName resourceKind issueType])

/-- Go `MultiLayerOrchestrator.executeStep`: infrastructure and platform
steps are passive monitors that always succeed; application steps dispatch
the remediators. -/
def executeStep (env : ExecEnv) (step : RemediationStep) :
    Option String × List ExecEvent :=
  if step.layer = LayerInfrastructure then
    (none, [ExecEvent.monitorOnly step.actionType step.target])
  else if step.layer = LayerPlatform then
    (none, [ExecEvent.monitorOnly step.actionType step.target])
  else if step.layer = LayerApplication then executeApplicationStep env step
  else (some ("unknown layer: " ++ step.layer), [])

/-- Go `MultiLayerOrchestrator.rollbackSteps`: iterate the executed steps in
reverse; rollback actions only log (restart rollbacks are not reversible,
infra/platform rollbacks are delegated), and errors never abort the loop. -/
def rollbackEvents (executed : List RemediationStep) : List ExecEvent :=
  (executed.reverse).map (fun s => ExecEvent.rollbackStep s.order)

/-- The step loop of Go `MultiLayerOrchestrator.ExecutePlan`.  `i` is the
zero-based index of the current step, `executed` the successfully executed
steps, `events` the accumulated effect trace.  An already-cancelled context
(`env.ctxCancelled`) is observed by the cancellable sleep after a
successful step with positive `wait_time`. -/
def execLoop (env : ExecEnv) (plan : RemediationPlan) :
    List RemediationStep → Nat → List RemediationStep → List ExecEvent →
    ExecutionResult × List ExecEvent
  | [], _, executed, events =>
    ({ status := "success", reason := "", executedSteps := executed.length,
       failedStep := none }, events)
  | step :: rest, i, executed, events =>
    let (err, evs) := executeStep env step
    let events := events ++ evs
    match err with
    | some msg =>
      if ¬ step.required then execLoop env plan rest (i + 1) executed events
      else
        let events := events ++ rollbackEvents executed
        ({ status := "failed", reason := msg, executedSteps := executed.length,
           failedStep := some i }, events)
    | none =>
      let executed := executed ++ [step]
      if step.waitTime > 0 ∧ env.ctxCancelled then
        ({ status := "failed", reason := "context cancelled",
           executedSteps := executed.length, failedStep := none }, events)
      else
        match plan.GetCheckpointAfterStep step.order with
        | none => execLoop env plan rest (i + 1) executed events
        | some cp =>
          let events := events ++ [ExecEvent.checkpointVerify cp.layer cp.timeout]
          match env.checkError cp.layer with
          | none => execLoop env plan rest (i + 1) executed events
          | some cerr =>
            if ¬ cp.required then execLoop env plan rest (i + 1) executed events
            else
              let events := events ++ rollbackEvents executed
              ({ status := "failed", reason := "checkpoint failed: " ++ cerr,
                 executedSteps := executed.length, failedStep := some i }, events)

/-- Go `MultiLayerOrchestrator.ExecutePlan`: run the steps in order and
return the execution result together with the effect trace. -/
def ExecutePlan (env : ExecEnv) (plan : RemediationPlan) :
    ExecutionResult × List ExecEvent :=
  execLoop env plan plan.steps 0 [] []

/-! ### internal/remediation/operator_remediator.go -/

/-- Go `CustomResourceInfo`. -/
structure CustomResourceInfo where
  kind : String
  name : String
  apiVersion : String
  group : String
  version : String
  resource : String
deriving Repr, DecidableEq

/-- Go `splitAPIVersion`: split on `/`, keeping non-empty segments
(the same character loop as `splitTarget`). -/
def splitAPIVersion (apiVersion : String) : List String :=
  splitSlashGo apiVersion.toList "" []

/-- Go `parseAPIVersion`: `group/version`, or core group when no slash. -/
def parseAPIVersion (apiVersion : String) : String × String :=
  match splitAPIVersion apiVersion with
  | [g, v] => (g, v)
  | parts => ("", parts.headD "")

/-- Go `inferResourceName`: lower-case the kind and append `s`
(the naive pluralisation the source documents as a simplification). -/
def inferResourceName (kind : String) : String :=
  strToLower kind ++ "s"

/-- A group/version/resource triple addressed by the dynamic client. -/
structure GVR where
  group : String
  version : String
  resource : String
deriving Repr, DecidableEq

/-- A custom resource as seen by the remediator: its annotation map. -/
structure CRObject where
  annotations : List (String × String)
deriving Repr, DecidableEq

/-- The dynamic-client view of the cluster: custom resources keyed by
group/version/resource, namespace and name. -/
abbrev DynState := List ((GVR × String × String) × CRObject)

/-- Dynamic-client `Get`. -/
def dynGet (st : DynState) (k : GVR × String × String) : Option CRObject :=
  alookup st k

/-- A JSON merge patch of `metadata.annotations`: add or overwrite exactly
the given keys on the object. -/
def mergePatchAnnotations (obj : CRObject) (patch : List (String × String)) : CRObject :=
  { annotations := patch.foldl (fun anns kv => aset anns kv.1 kv.2) obj.annotations }

/-- Dynamic-client `Patch` with a metadata.annotations merge patch. -/
def dynPatch (st : DynState) (k : GVR × String × String)
    (patch : List (String × String)) : DynState :=
  match dynGet st k with
  | none => st
  | some obj => aset st k (mergePatchAnnotations obj patch)

/-- The annotations carried by the merge patch `triggerReconciliation`
builds (`timestamp` is the formatted Unix time). -/
def reconcilePatchAnnotations (timestamp : String) : List (String × String) :=
  [("remediation.aiops/trigger", timestamp),
   ("remediation.aiops/trigger-by", "coordination-engine")]

/-- Go `OperatorRemediator.triggerReconciliation`: verify that the CR exists
(`Get`), then apply the merge patch adding the trigger annotations; a failed
`Get` aborts with an error and no patch. -/
def triggerReconciliation (st : DynState) (cr : CustomResourceInfo) (ns : String)
    (timestamp : String) : Except String DynState :=
  let gvr : GVR := { group := cr.group, version := cr.version, resource := cr.resource }
  match dynGet st (gvr, ns, cr.name) with
  | none => .error "failed to get CR"
  | some _ => .ok (dynPatch st (gvr, ns, cr.name) (reconcilePatchAnnotations timestamp))

/-! ### Lemmas about `LayeredIssue` updates -/

theorem AddAffectedLayer_mem (li : LayeredIssue) (l x : Layer)
    (h : x ∈ li.affectedLayers) : x ∈ (li.AddAffectedLayer l).affectedLayers := by
  unfold LayeredIssue.AddAffectedLayer
  split <;> simp [h]

theorem AddAffectedLayer_mem_self (li : LayeredIssue) (l : Layer) :
    l ∈ (li.AddAffectedLayer l).affectedLayers := by
  unfold LayeredIssue.AddAffectedLayer
  split
  · assumption
  · simp

theorem AddAffectedLayer_ne_nil (li : LayeredIssue) (l : Layer)
    (h : li.affectedLayers ≠ []) : (li.AddAffectedLayer l).affectedLayers ≠ [] := by
  unfold LayeredIssue.AddAffectedLayer
  split <;> simp [h]

theorem AddAffectedLayer_sub (li : LayeredIssue) (l : Layer) (P : Layer → Prop)
    (h : ∀ x ∈ li.affectedLayers, P x) (hl : P l) :
    ∀ x ∈ (li.AddAffectedLayer l).affectedLayers, P x := by
  unfold LayeredIssue.AddAffectedLayer
  split
  · exact h
  · intro x hx
    simp only [List.mem_append, List.mem_singleton] at hx
    rcases hx with hx | hx
    · exact h x hx
    · exact hx ▸ hl

theorem AddAffectedLayer_nodup (li : LayeredIssue) (l : Layer)
    (h : li.affectedLayers.Nodup) : (li.AddAffectedLayer l).affectedLayers.Nodup := by
  unfold LayeredIssue.AddAffectedLayer
  split
  · exact h
  · rename_i hmem
    simp only [List.nodup_append, List.nodup_cons, List.not_mem_nil, not_false_iff,
      List.nodup_nil, and_true, true_and]
    exact ⟨h, fun x hx => by
      simp only [List.mem_singleton]
      intro hxl
      exact hmem (hxl ▸ hx)⟩

theorem groupAndAddResources_affectedLayers :
    ∀ (resources : List Resource) (li : LayeredIssue),
    (groupAndAddResources li resources).affectedLayers = li.affectedLayers := by
  intro resources
  induction resources with
  | nil => intro li; rfl
  | cons r rest ih =>
    intro li
    show (groupAndAddResources (li.AddImpactedResource (resourceToLayer r) r)
      rest).affectedLayers = _
    rw [ih]
    rfl

theorem groupAndAddResources_rootCauseLayer :
    ∀ (resources : List Resource) (li : LayeredIssue),
    (groupAndAddResources li resources).rootCauseLayer = li.rootCauseLayer := by
  intro resources
  induction resources with
  | nil => intro li; rfl
  | cons r rest ih =>
    intro li
    show (groupAndAddResources (li.AddImpactedResource (resourceToLayer r) r)
      rest).rootCauseLayer = _
    rw [ih]
    rfl

theorem determineInitialLayer_three (description : String) (resources : List Resource) :
    determineInitialLayer description resources = LayerInfrastructure ∨
    determineInitialLayer description resources = LayerPlatform ∨
    determineInitialLayer description resources = LayerApplication := by
  unfold determineInitialLayer
  split
  · exact Or.inl rfl
  · split
    · exact Or.inr (Or.inl rfl)
    · exact Or.inr (Or.inr rfl)

theorem determineRootCause_mem (l : List Layer) (hne : l ≠ [])
    (hsub : ∀ x ∈ l, x = LayerInfrastructure ∨ x = LayerPlatform ∨ x = LayerApplication) :
    determineRootCause l ∈ l := by
  unfold determineRootCause
  rw [if_neg hne]
  split
  · assumption
  · split
    · assumption
    · rename_i hni hnp
      obtain ⟨x, hx⟩ := List.exists_mem_of_ne_nil l hne
      rcases hsub x hx with h | h | h
      · exact absurd (h ▸ hx) hni
      · exact absurd (h ▸ hx) hnp
      · exact h ▸ hx

/-- Structural facts about every keyword-detector result: the affected
layers are non-empty, drawn from the three known layers, duplicate-free,
and the root cause is `determineRootCause` of them. -/
theorem DetectLayers_props (id desc : String) (rs : List Resource) :
    (DetectLayers id desc rs).affectedLayers ≠ [] ∧
    (∀ x ∈ (DetectLayers id desc rs).affectedLayers,
      x = LayerInfrastructure ∨ x = LayerPlatform ∨ x = LayerApplication) ∧
    (DetectLayers id desc rs).affectedLayers.Nodup ∧
    (DetectLayers id desc rs).rootCauseLayer =
      determineRootCause (DetectLayers id desc rs).affectedLayers := by
  unfold DetectLayers
  simp only [groupAndAddResources_affectedLayers, groupAndAddResources_rootCauseLayer]
  have h0ne : (NewLayeredIssue id desc (determineInitialLayer desc rs)).affectedLayers
      ≠ [] := by simp [NewLayeredIssue]
  have h0sub : ∀ x ∈ (NewLayeredIssue id desc
      (determineInitialLayer desc rs)).affectedLayers,
      x = LayerInfrastructure ∨ x = LayerPlatform ∨ x = LayerApplication := by
    intro x hx
    simp only [NewLayeredIssue, List.mem_singleton] at hx
    exact hx ▸ determineInitialLayer_three desc rs
  have h0nd : (NewLayeredIssue id desc
      (determineInitialLayer desc rs)).affectedLayers.Nodup := by
    simp [NewLayeredIssue]
  split <;> split <;> split <;>
    refine ⟨?_, ?_, ?_, by trivial⟩ <;>
    first
      | (apply AddAffectedLayer_ne_nil
         repeat' first
           | exact h0ne
           | apply AddAffectedLayer_ne_nil)
      | (apply AddAffectedLayer_sub
         · repeat' first
             | exact h0sub
             | apply AddAffectedLayer_sub
             | simp [LayerInfrastructure, LayerPlatform, LayerApplication]
         · simp [LayerInfrastructure, LayerPlatform, LayerApplication])
      | (apply AddAffectedLayer_nodup
         repeat' first
           | exact h0nd
           | apply AddAffectedLayer_nodup)
      | exact h0ne
      | exact h0sub
      | exact h0nd

theorem AddAffectedLayer_root (li : LayeredIssue) (l : Layer) :
    (li.AddAffectedLayer l).rootCauseLayer = li.rootCauseLayer := by
  unfold LayeredIssue.AddAffectedLayer
  split <;> rfl

theorem enhanceLayer_mem (issue : LayeredIssue) (layer : Layer)
    (pred : Option LayerPrediction) (x : Layer) (h : x ∈ issue.affectedLayers) :
    x ∈ (enhanceLayer issue layer pred).affectedLayers := by
  unfold enhanceLayer
  cases pred with
  | none => exact h
  | some p =>
    cases haff : p.affected with
    | false => simpa [haff] using h
    | true =>
      simp only [haff, if_true]
      exact AddAffectedLayer_mem _ _ _ h

theorem enhanceLayer_ne_nil (issue : LayeredIssue) (layer : Layer)
    (pred : Option LayerPrediction) (h : issue.affectedLayers ≠ []) :
    (enhanceLayer issue layer pred).affectedLayers ≠ [] := by
  unfold enhanceLayer
  cases pred with
  | none => exact h
  | some p =>
    cases haff : p.affected with
    | false => simpa [haff] using h
    | true =>
      simp only [haff, if_true]
      exact AddAffectedLayer_ne_nil _ _ h

theorem enhanceLayer_root (issue : LayeredIssue) (layer : Layer)
    (pred : Option LayerPrediction) :
    (enhanceLayer issue layer pred).rootCauseLayer = issue.rootCauseLayer := by
  unfold enhanceLayer
  cases pred with
  | none => rfl
  | some p =>
    cases haff : p.affected with
    | false => simp [haff]
    | true =>
      simp only [haff, if_true]
      exact AddAffectedLayer_root _ _

theorem enhance_mem (issue : LayeredIssue) (mlPred : MLLayerPredictions) (x : Layer)
    (h : x ∈ issue.affectedLayers) :
    x ∈ (enhanceWithMLPredictions issue mlPred).affectedLayers := by
  have h1 : x ∈ ({ issue with mlPredictions := some mlPred } :
      LayeredIssue).affectedLayers := h
  have h2 := enhanceLayer_mem _ LayerInfrastructure mlPred.infrastructure x h1
  have h3 := enhanceLayer_mem _ LayerPlatform mlPred.platform x h2
  have h4 := enhanceLayer_mem _ LayerApplication mlPred.application x h3
  unfold enhanceWithMLPredictions
  split <;> split <;> exact h4

theorem enhance_ne_nil (issue : LayeredIssue) (mlPred : MLLayerPredictions)
    (h : issue.affectedLayers ≠ []) :
    (enhanceWithMLPredictions issue mlPred).affectedLayers ≠ [] := by
  have h1 : ({ issue with mlPredictions := some mlPred } :
      LayeredIssue).affectedLayers ≠ [] := h
  have h2 := enhanceLayer_ne_nil _ LayerInfrastructure mlPred.infrastructure h1
  have h3 := enhanceLayer_ne_nil _ LayerPlatform mlPred.platform h2
  have h4 := enhanceLayer_ne_nil _ LayerApplication mlPred.application h3
  unfold enhanceWithMLPredictions
  split <;> split <;> exact h4

theorem enhance_root_lowconf (issue : LayeredIssue) (mlPred : MLLayerPredictions)
    (h : mlPred.confidence < rootCauseConfidenceThreshold) :
    (enhanceWithMLPredictions issue mlPred).rootCauseLayer = issue.rootCauseLayer := by
  unfold enhanceWithMLPredictions
  rw [if_neg (not_le.mpr h)]
  have h2 := enhanceLayer_root ({ issue with mlPredictions := some mlPred })
    LayerInfrastructure mlPred.infrastructure
  have h3 := enhanceLayer_root
    (enhanceLayer ({ issue with mlPredictions := some mlPred }) LayerInfrastructure
      mlPred.infrastructure) LayerPlatform mlPred.platform
  have h4 := enhanceLayer_root
    (enhanceLayer
      (enhanceLayer ({ issue with mlPredictions := some mlPred }) LayerInfrastructure
        mlPred.infrastructure) LayerPlatform mlPred.platform)
    LayerApplication mlPred.application
  split <;> simp only [h4, h3, h2]

theorem parseMLResponse_confidence (resp : PatternAnalysisResponse)
    (resources : List Resource) :
    (parseMLResponse resp resources).confidence = resp.summary.confidence := rfl

/-- Claim C1 (amended): for the keyword detector, every `LayeredIssue` has a
non-empty `affected_layers` containing `root_cause_layer`.  The ML-enhanced
detector always returns non-empty `affected_layers`, and its
`root_cause_layer` lies in `affected_layers` whenever the ML call is
disabled, fails, or reports overall confidence below the 0.85 threshold
(when the threshold is reached the adopted ML root cause can fall outside
`affected_layers`; see the counterexample). -/
theorem C1_layeredIssue_invariant :
    (∀ (id desc : String) (rs : List Resource),
      (DetectLayers id desc rs).rootCauseLayer ∈ (DetectLayers id desc rs).affectedLayers ∧
      (DetectLayers id desc rs).affectedLayers ≠ []) ∧
    (∀ (b : Bool) (id desc : String) (rs : List Resource)
        (mr : Option PatternAnalysisResponse),
      (DetectLayersWithML b id desc rs mr).affectedLayers ≠ []) ∧
    (∀ (b : Bool) (id desc : String) (rs : List Resource)
        (mr : Option PatternAnalysisResponse),
      (∀ resp, mr = some resp →
        resp.summary.confidence < rootCauseConfidenceThreshold) →
      (DetectLayersWithML b id desc rs mr).rootCauseLayer ∈
        (DetectLayersWithML b id desc rs mr).affectedLayers) := by
  have hkey : ∀ (id desc : String) (rs : List Resource),
      (DetectLayers id desc rs).rootCauseLayer ∈ (DetectLayers id desc rs).affectedLayers ∧
      (DetectLayers id desc rs).affectedLayers ≠ [] := by
    intro id desc rs
    obtain ⟨hne, hsub, _, hroot⟩ := DetectLayers_props id desc rs
    exact ⟨hroot ▸ determineRootCause_mem _ hne hsub, hne⟩
  refine ⟨hkey, ?_, ?_⟩
  · intro b id desc rs mr
    unfold DetectLayersWithML
    cases b with
    | false => exact (hkey id desc rs).2
    | true =>
      cases mr with
      | none => exact (hkey id desc rs).2
      | some resp =>
        simp only [Bool.not_true, Bool.false_eq_true, if_false]
        exact enhance_ne_nil _ _ (hkey id desc rs).2
  · intro b id desc rs mr hconf
    unfold DetectLayersWithML
    cases b with
    | false => exact (hkey id desc rs).1
    | true =>
      cases mr with
      | none => exact (hkey id desc rs).1
      | some resp =>
        simp only [Bool.not_true, Bool.false_eq_true, if_false]
        have hlow : (parseMLResponse resp rs).confidence < rootCauseConfidenceThreshold := by
          rw [parseMLResponse_confidence]
          exact hconf resp rfl
        show (enhanceWithMLPredictions _ _).rootCauseLayer ∈
          (enhanceWithMLPredictions _ _).affectedLayers
        rw [enhance_root_lowconf _ _ hlow]
        exact enhance_mem _ _ _ (hkey id desc rs).1

/-- Claim C1 witness: the invariant instantiated on a concrete crash-loop
issue and a low-confidence ML response. -/
theorem C1_witness :
    (DetectLayersWithML true "w1" "pod crash loop" []
      (some { patterns := [], insights := [],
              summary := { patternsFound := 0, confidence := 0.5 } })).rootCauseLayer ∈
    (DetectLayersWithML true "w1" "pod crash loop" []
      (some { patterns := [], insights := [],
              summary := { patternsFound := 0, confidence := 0.5 } })).affectedLayers :=
  C1_layeredIssue_invariant.2.2 true "w1" "pod crash loop" []
    (some { patterns := [], insights := [],
            summary := { patternsFound := 0, confidence := 0.5 } })
    (fun resp hresp => by
      cases hresp
      show (0.5 : ℚ) < rootCauseConfidenceThreshold
      norm_num [rootCauseConfidenceThreshold])

/-- The ML response used in the C1 counterexample: a successful pattern
analysis with high overall confidence (0.9 ≥ 0.85) but no patterns. -/
def respC1 : PatternAnalysisResponse :=
  { patterns := [], insights := [],
    summary := { patternsFound := 0, confidence := 0.9 } }

/-- The keyword-detector result for the C1 counterexample input. -/
def baseC1 : LayeredIssue :=
  { id := "i1", description := "node not ready",
    affectedLayers := ["infrastructure"], rootCauseLayer := "infrastructure",
    impactedResources := [], severity := "medium", mlPredictions := none,
    layerConfidence := [], detectionMethod := "keyword", historicalPattern := "" }

/-- The parsed ML predictions for the C1 counterexample: no patterns and no
resources give every layer probability 0, so no layer is predicted affected,
yet the root-cause suggestion defaults to application. -/
def mlPC1 : MLLayerPredictions :=
  { infrastructure := none, platform := none, application := none,
    rootCauseSuggestion := "application", confidence := 0.9, analysisType := "pattern" }

theorem detectLayers_baseC1 : DetectLayers "i1" "node not ready" [] = baseC1 := by
  decide

theorem parseML_respC1 : parseMLResponse respC1 [] = mlPC1 := by
  simp +decide [parseMLResponse, calculateLayerProbability, respC1, determineMLRootCause,
    maxFloat64, extractEvidence, probabilityThreshold, LayerApplication,
    LayerInfrastructure, LayerPlatform, mlPC1]
  norm_num

theorem detectWithML_C1 :
    DetectLayersWithML true "i1" "node not ready" [] (some respC1) =
    { baseC1 with
      layerConfidence := [("infrastructure", 0.70)],
      mlPredictions := some mlPC1,
      historicalPattern := "application_pattern",
      rootCauseLayer := "application",
      detectionMethod := "ml_enhanced" } := by
  unfold DetectLayersWithML
  rw [detectLayers_baseC1]
  simp +decide [baseC1, aset, List.foldl, parseML_respC1, enhanceWithMLPredictions,
    enhanceLayer, mlPC1, rootCauseConfidenceThreshold]
  norm_num

/-- Claim C1 counterexample: on the issue description "node not ready" with
no resources and an ML response with empty patterns and overall confidence
0.9 (≥ 0.85, so the ML root cause is adopted), the ML-enhanced detector
returns `affected_layers = [infrastructure]` but
`root_cause_layer = application ∉ affected_layers`. -/
theorem C1_counterexample :
    (DetectLayersWithML true "i1" "node not ready" [] (some respC1)).affectedLayers
      = [LayerInfrastructure] ∧
    (DetectLayersWithML true "i1" "node not ready" [] (some respC1)).rootCauseLayer
      = LayerApplication ∧
    (DetectLayersWithML true "i1" "node not ready" [] (some respC1)).rootCauseLayer
      ∉ (DetectLayersWithML true "i1" "node not ready" [] (some respC1)).affectedLayers := by
  rw [detectWithML_C1]
  refine ⟨rfl, rfl, ?_⟩
  decide

/-- Claim C10: `AddAffectedLayer` is idempotent on layers already present,
and the keyword detector's affected layers contain no duplicates. -/
theorem C10_addAffectedLayer_idempotent :
    (∀ (li : LayeredIssue) (layer : Layer), layer ∈ li.affectedLayers →
      li.AddAffectedLayer layer = li) ∧
    (∀ (id desc : String) (rs : List Resource),
      (DetectLayers id desc rs).affectedLayers.Nodup) := by
  constructor
  · intro li layer h
    unfold LayeredIssue.AddAffectedLayer
    rw [if_pos h]
  · intro id desc rs
    exact (DetectLayers_props id desc rs).2.2.1

/-- Claim C10 witness: idempotence on a concrete issue already containing
the application layer, and duplicate-freedom on a concrete detection. -/
theorem C10_witness :
    (NewLayeredIssue "w" "d" LayerApplication).AddAffectedLayer LayerApplication
      = NewLayeredIssue "w" "d" LayerApplication ∧
    (DetectLayers "w" "pod crash loop on node" [⟨"Pod", "p1", "default", ""⟩]
      ).affectedLayers.Nodup :=
  ⟨C10_addAffectedLayer_idempotent.1 _ _ (by decide),
   C10_addAffectedLayer_idempotent.2 "w" "pod crash loop on node"
     [⟨"Pod", "p1", "default", ""⟩]⟩

/-! ### Claims C5 and C9: deployment-method detection -/

/-- The canonical confidence for each deployment method, as the spec's
table states it (gitops/argocd 0.95, helm 0.90, operator 0.80,
direct/manual 0.60). -/
def canonicalConfidence (method : String) : ℚ :=
  if method = DeploymentMethodArgoCD then ConfidenceArgoCD
  else if method = DeploymentMethodHelm then ConfidenceHelm
  else if method = DeploymentMethodOperator then ConfidenceOperator
  else if method = DeploymentMethodManual then ConfidenceManual
  else 0

theorem detectFromMetadata_cases (annotations labels : List (String × String))
    (ns resourceName resourceKind : String) :
    ((detectFromMetadata annotations labels ns resourceName resourceKind).method
        = DeploymentMethodArgoCD ∧
      (detectFromMetadata annotations labels ns resourceName resourceKind).confidence
        = ConfidenceArgoCD) ∨
    ((detectFromMetadata annotations labels ns resourceName resourceKind).method
        = DeploymentMethodHelm ∧
      (detectFromMetadata annotations labels ns resourceName resourceKind).confidence
        = ConfidenceHelm) ∨
    ((detectFromMetadata annotations labels ns resourceName resourceKind).method
        = DeploymentMethodOperator ∧
      (detectFromMetadata annotations labels ns resourceName resourceKind).confidence
        = ConfidenceOperator) ∨
    ((detectFromMetadata annotations labels ns resourceName resourceKind).method
        = DeploymentMethodManual ∧
      (detectFromMetadata annotations labels ns resourceName resourceKind).confidence
        = ConfidenceManual) := by
  simp only [detectFromMetadata, detectFromMetadataFallback, DeploymentInfo.SetDetail,
    NewDeploymentInfo]
  repeat' split
  all_goals
    first
      | exact Or.inl ⟨rfl, rfl⟩
      | exact Or.inr (Or.inl ⟨rfl, rfl⟩)
      | exact Or.inr (Or.inr (Or.inl ⟨rfl, rfl⟩))
      | exact Or.inr (Or.inr (Or.inr ⟨rfl, rfl⟩))

/-- Claim C5 (amended): every `DeploymentInfo` built by `detectFromMetadata`
carries exactly the canonical confidence of its method (argocd 0.95, helm
0.90, operator 0.80, manual 0.60), all within [0,1]; the `DeploymentInfo`
the orchestrator synthesises when detection fails is different: it has
method `unknown` with confidence 0.5, which is also within [0,1] but is not
one of the four canonical values. -/
theorem C5_confidence_canonical :
    (∀ (annotations labels : List (String × String))
        (ns resourceName resourceKind : String),
      (detectFromMetadata annotations labels ns resourceName resourceKind).confidence
        = canonicalConfidence
          (detectFromMetadata annotations labels ns resourceName resourceKind).method ∧
      0 ≤ (detectFromMetadata annotations labels ns resourceName resourceKind).confidence ∧
      (detectFromMetadata annotations labels ns resourceName resourceKind).confidence ≤ 1) ∧
    (∀ (ns resourceName resourceKind : String),
      (NewDeploymentInfo ns resourceName resourceKind DeploymentMethodUnknown 0.5).method
        = DeploymentMethodUnknown ∧
      (NewDeploymentInfo ns resourceName resourceKind DeploymentMethodUnknown
        0.5).confidence = 0.5 ∧
      (0 : ℚ) ≤ 0.5 ∧ (0.5 : ℚ) ≤ 1) := by
  constructor
  · intro annotations labels ns resourceName resourceKind
    rcases detectFromMetadata_cases annotations labels ns resourceName resourceKind with
      ⟨hm, hc⟩ | ⟨hm, hc⟩ | ⟨hm, hc⟩ | ⟨hm, hc⟩ <;>
      rw [hm, hc] <;>
      refine ⟨by simp +decide [canonicalConfidence, DeploymentMethodArgoCD,
        DeploymentMethodHelm, DeploymentMethodOperator, DeploymentMethodManual,
        ConfidenceArgoCD, ConfidenceHelm, ConfidenceOperator, ConfidenceManual], ?_, ?_⟩ <;>
      norm_num [ConfidenceArgoCD, ConfidenceHelm, ConfidenceOperator, ConfidenceManual]
  · intro ns resourceName resourceKind
    exact ⟨rfl, rfl, by norm_num, by norm_num⟩

/-- Claim C5 counterexample: the orchestrator's fallback `DeploymentInfo`
(method `unknown`, confidence 0.5) does not carry one of the four canonical
confidence values 0.95/0.90/0.80/0.60. -/
theorem C5_counterexample :
    (NewDeploymentInfo "default" "p1" "Deployment" DeploymentMethodUnknown
      0.5).confidence = 0.5 ∧
    ¬((NewDeploymentInfo "default" "p1" "Deployment" DeploymentMethodUnknown
        0.5).confidence = 0.95 ∨
      (NewDeploymentInfo "default" "p1" "Deployment" DeploymentMethodUnknown
        0.5).confidence = 0.90 ∨
      (NewDeploymentInfo "default" "p1" "Deployment" DeploymentMethodUnknown
        0.5).confidence = 0.80 ∨
      (NewDeploymentInfo "default" "p1" "Deployment" DeploymentMethodUnknown
        0.5).confidence = 0.60) := by
  refine ⟨rfl, ?_⟩
  show ¬((0.5 : ℚ) = 0.95 ∨ (0.5 : ℚ) = 0.90 ∨ (0.5 : ℚ) = 0.80 ∨ (0.5 : ℚ) = 0.60)
  norm_num

theorem isOperatorManager_of (v : String)
    (h : strContains (strToLower v) "operator" = true ∨
      strToLower v ∈ ["prometheus-operator", "etcd-operator", "mysql-operator",
        "postgres-operator", "redis-operator", "kafka-operator", "elastic-operator",
        "mongodb-operator"]) :
    isOperatorManager v = true := by
  simp only [isOperatorManager]
  rcases h with h | h
  · rw [if_pos (by simp [h])]
  · split
    · rfl
    · simp only [List.any_eq_true]
      exact ⟨strToLower v, h, by simp⟩

/-- Claim C9 (amended): a workload whose `app.kubernetes.io/managed-by`
label value does not (case-insensitively) contain "helm" and either
contains the substring "operator" or equals (case-insensitively) one of the
eight well-known operator names in full — not merely by prefix — is
classified controller-managed with confidence 0.80, provided no
higher-priority GitOps/Helm rule fired. -/
theorem C9_operator_classification (annotations labels : List (String × String))
    (ns resourceName resourceKind v : String)
    (h1 : (alookup annotations ArgoCDTrackingAnnotation).getD "" = "")
    (h2 : (alookup labels ArgoCDInstanceLabel).getD "" = "")
    (h3 : (alookup annotations HelmReleaseNameAnnotation).getD "" = "")
    (hmb : alookup labels ManagedByLabel = some v)
    (hne : v ≠ "")
    (hnHelm : v ≠ "Helm")
    (hnhelm : strContains (strToLower v) "helm" = false)
    (hop : strContains (strToLower v) "operator" = true ∨
      strToLower v ∈ ["prometheus-operator", "etcd-operator", "mysql-operator",
        "postgres-operator", "redis-operator", "kafka-operator", "elastic-operator",
        "mongodb-operator"]) :
    (detectFromMetadata annotations labels ns resourceName resourceKind).method
      = DeploymentMethodOperator ∧
    (detectFromMetadata annotations labels ns resourceName resourceKind).confidence
      = ConfidenceOperator := by
  have hfall :
      (detectFromMetadataFallback annotations labels ns resourceName
        resourceKind).method = DeploymentMethodOperator ∧
      (detectFromMetadataFallback annotations labels ns resourceName
        resourceKind).confidence = ConfidenceOperator := by
    unfold detectFromMetadataFallback
    simp only [h2, h3, hmb, Option.getD_some]
    rw [if_neg (by simp), if_neg (by simp),
      if_pos ⟨hne, hnHelm, by simp [hnhelm], isOperatorManager_of v hop⟩]
    cases alookup labels "app.kubernetes.io/name" <;> exact ⟨rfl, rfl⟩
  unfold detectFromMetadata
  cases htr : alookup annotations ArgoCDTrackingAnnotation with
  | none => exact hfall
  | some s =>
    have hs : s = "" := by rw [htr] at h1; simpa using h1
    subst hs
    simpa +decide using hfall

/-- Claim C9 witness: the exact allowlist name "mysql-operator" classifies
as controller-managed with confidence 0.80. -/
theorem C9_witness :
    (detectFromMetadata [] [("app.kubernetes.io/managed-by", "mysql-operator")]
      "default" "db" "Deployment").method = DeploymentMethodOperator ∧
    (detectFromMetadata [] [("app.kubernetes.io/managed-by", "mysql-operator")]
      "default" "db" "Deployment").confidence = ConfidenceOperator :=
  C9_operator_classification [] [("app.kubernetes.io/managed-by", "mysql-operator")]
    "default" "db" "Deployment" "mysql-operator"
    (by decide) (by decide) (by decide) (by decide) (by decide) (by decide) (by decide)
    (Or.inl (by decide))

/-- Claim C9 counterexample: "mysql-controller" matches the spec's allowlist
prefix "mysql-" and contains no "helm", yet `isOperatorManager` rejects it
(the allowlist is compared by full equality, not by prefix), so the detector
classifies the workload as manual with confidence 0.60, not
controller-managed with 0.80. -/
theorem C9_counterexample :
    listHasPref "mysql-controller".toList "mysql-".toList = true ∧
    strContains (strToLower "mysql-controller") "helm" = false ∧
    isOperatorManager "mysql-controller" = false ∧
    (detectFromMetadata [] [("app.kubernetes.io/managed-by", "mysql-controller")]
      "default" "db" "Deployment").method = DeploymentMethodManual ∧
    (detectFromMetadata [] [("app.kubernetes.io/managed-by", "mysql-controller")]
      "default" "db" "Deployment").method ≠ DeploymentMethodOperator ∧
    (detectFromMetadata [] [("app.kubernetes.io/managed-by", "mysql-controller")]
      "default" "db" "Deployment").confidence = ConfidenceManual := by
  refine ⟨by decide, by decide, by decide, by decide, by decide, rfl⟩

/-! ### Claim C8: operator remediator reconciliation trigger -/

/-- The group/version/resource triple `triggerReconciliation` derives from a
located custom resource. -/
def crGVR (cr : CustomResourceInfo) : GVR :=
  { group := cr.group, version := cr.version, resource := cr.resource }

/-- Claim C8 (amended): once the owning custom resource is located,
`triggerReconciliation` first verifies the CR exists (a failed Get aborts
with an error and no patch) and then applies a merge patch that adds or
overwrites exactly the annotations `remediation.aiops/trigger = <unix
timestamp>` and `remediation.aiops/trigger-by = "coordination-engine"` on
that custom resource, leaving every other annotation and every other CR
unchanged.  (The spec's annotation keys `remediation/trigger` and
`remediation/trigger-by` do not match the code, which uses the
`remediation.aiops/` prefix; see the counterexample.) -/
theorem C8_triggerReconciliation_patch (st : DynState) (cr : CustomResourceInfo)
    (ns ts : String) :
    (dynGet st (crGVR cr, ns, cr.name) = none →
      triggerReconciliation st cr ns ts = .error "failed to get CR") ∧
    (∀ obj, dynGet st (crGVR cr, ns, cr.name) = some obj →
      triggerReconciliation st cr ns ts =
        .ok (aset st (crGVR cr, ns, cr.name)
          (mergePatchAnnotations obj (reconcilePatchAnnotations ts))) ∧
      alookup (mergePatchAnnotations obj (reconcilePatchAnnotations ts)).annotations
        "remediation.aiops/trigger" = some ts ∧
      alookup (mergePatchAnnotations obj (reconcilePatchAnnotations ts)).annotations
        "remediation.aiops/trigger-by" = some "coordination-engine" ∧
      (∀ k, k ≠ "remediation.aiops/trigger" → k ≠ "remediation.aiops/trigger-by" →
        alookup (mergePatchAnnotations obj (reconcilePatchAnnotations ts)).annotations k
          = alookup obj.annotations k)) := by
  have hmerge : ∀ obj : CRObject,
      (mergePatchAnnotations obj (reconcilePatchAnnotations ts)).annotations =
      aset (aset obj.annotations "remediation.aiops/trigger" ts)
        "remediation.aiops/trigger-by" "coordination-engine" := by
    intro obj
    rfl
  have htr : triggerReconciliation st cr ns ts =
      (match dynGet st (crGVR cr, ns, cr.name) with
       | none => Except.error "failed to get CR"
       | some _ => Except.ok (dynPatch st (crGVR cr, ns, cr.name)
           (reconcilePatchAnnotations ts))) := rfl
  constructor
  · intro hnone
    rw [htr, hnone]
  · intro obj hobj
    have hpatch : dynPatch st (crGVR cr, ns, cr.name) (reconcilePatchAnnotations ts) =
        aset st (crGVR cr, ns, cr.name)
          (mergePatchAnnotations obj (reconcilePatchAnnotations ts)) := by
      unfold dynPatch
      rw [hobj]
    refine ⟨?_, ?_, ?_, ?_⟩
    · rw [htr, hobj, hpatch]
    · rw [hmerge, alookup_aset_ne _ _ _ _ (by decide), alookup_aset_self]
    · rw [hmerge, alookup_aset_self]
    · intro k hk1 hk2
      rw [hmerge, alookup_aset_ne _ _ _ _ (Ne.symm hk2), alookup_aset_ne _ _ _ _
        (Ne.symm hk1)]

/-- The concrete cluster state of the C8 witness and counterexample: one
custom resource `db1` of a hypothetical MyDatabase kind. -/
def gvrC8 : GVR :=
  { group := "example.com", version := "v1", resource := "mydatabases" }

def stC8 : DynState :=
  [((gvrC8, "default", "db1"), { annotations := [("team", "db")] })]

/-- The owner CR located by the C8 scenario. -/
def crC8 : CustomResourceInfo :=
  { kind := "MyDatabase", name := "db1", apiVersion := "example.com/v1",
    group := "example.com", version := "v1", resource := "mydatabases" }

/-- Claim C8 witness: the patch applied to the concrete CR. -/
theorem C8_witness :
    triggerReconciliation stC8 crC8 "default" "1700000000" =
      .ok (aset stC8 (gvrC8, "default", "db1")
        (mergePatchAnnotations { annotations := [("team", "db")] }
          (reconcilePatchAnnotations "1700000000"))) ∧
    alookup (mergePatchAnnotations { annotations := [("team", "db")] }
        (reconcilePatchAnnotations "1700000000")).annotations
      "remediation.aiops/trigger" = some "1700000000" :=
  ⟨((C8_triggerReconciliation_patch stC8 crC8 "default" "1700000000").2
      { annotations := [("team", "db")] } (by decide)).1,
   ((C8_triggerReconciliation_patch stC8 crC8 "default" "1700000000").2
      { annotations := [("team", "db")] } (by decide)).2.1⟩

/-- Claim C8 counterexample: the merge patch does not write the annotation
keys the claim names (`remediation/trigger`, `remediation/trigger-by`); the
patched CR carries `remediation.aiops/trigger` and
`remediation.aiops/trigger-by` instead. -/
theorem C8_counterexample :
    alookup (mergePatchAnnotations { annotations := [("team", "db")] }
        (reconcilePatchAnnotations "1700000000")).annotations
      "remediation/trigger" = none ∧
    alookup (mergePatchAnnotations { annotations := [("team", "db")] }
        (reconcilePatchAnnotations "1700000000")).annotations
      "remediation/trigger-by" = none ∧
    alookup (mergePatchAnnotations { annotations := [("team", "db")] }
        (reconcilePatchAnnotations "1700000000")).annotations
      "remediation.aiops/trigger" = some "1700000000" ∧
    alookup (mergePatchAnnotations { annotations := [("team", "db")] }
        (reconcilePatchAnnotations "1700000000")).annotations
      "remediation.aiops/trigger-by" = some "coordination-engine" := by
  refine ⟨by decide, by decide, by decide, by decide⟩

/-! ### Claims C3 and C4: orchestrator execution -/

theorem execLoop_trace_append (env : ExecEnv) (plan : RemediationPlan) :
    ∀ (steps : List RemediationStep) (i : Nat) (executed : List RemediationStep)
      (events : List ExecEvent),
    ∃ t, (execLoop env plan steps i executed events).2 = events ++ t := by
  intro steps
  induction steps with
  | nil =>
    intro i executed events
    exact ⟨[], by simp [execLoop]⟩
  | cons step rest ih =>
    intro i executed events
    rcases hx : executeStep env step with ⟨err, evs⟩
    cases err with
    | some msg =>
      by_cases hreq : step.required = true
      · refine ⟨evs ++ rollbackEvents executed, ?_⟩
        simp [execLoop, hx, hreq]
      · obtain ⟨t, ht⟩ := ih (i + 1) executed (events ++ evs)
        refine ⟨evs ++ t, ?_⟩
        simp only [execLoop, hx]
        rw [if_pos (by simp [hreq])]
        rw [ht, List.append_assoc]
    | none =>
      by_cases hcc : step.waitTime > 0 ∧ env.ctxCancelled = true
      · refine ⟨evs, ?_⟩
        simp only [execLoop, hx]
        rw [if_pos hcc]
      · cases hcp : plan.GetCheckpointAfterStep step.order with
        | none =>
          obtain ⟨t, ht⟩ := ih (i + 1) (executed ++ [step]) (events ++ evs)
          refine ⟨evs ++ t, ?_⟩
          simp only [execLoop, hx]
          rw [if_neg hcc]
          simp only [hcp]
          rw [ht, List.append_assoc]
        | some cp =>
          cases hck : env.checkError cp.layer with
          | none =>
            obtain ⟨t, ht⟩ := ih (i + 1) (executed ++ [step])
              (events ++ evs ++ [ExecEvent.checkpointVerify cp.layer cp.timeout])
            refine ⟨evs ++ [ExecEvent.checkpointVerify cp.layer cp.timeout] ++ t, ?_⟩
            simp only [execLoop, hx]
            rw [if_neg hcc]
            simp only [hcp, hck]
            rw [ht]
            simp [List.append_assoc]
          | some cerr =>
            by_cases hreq : cp.required = true
            · refine ⟨evs ++ [ExecEvent.checkpointVerify cp.layer cp.timeout]
                ++ rollbackEvents (executed ++ [step]), ?_⟩
              simp only [execLoop, hx]
              rw [if_neg hcc]
              simp only [hcp, hck]
              rw [if_neg (by simp [hreq])]
              simp [List.append_assoc]
            · obtain ⟨t, ht⟩ := ih (i + 1) (executed ++ [step])
                (events ++ evs ++ [ExecEvent.checkpointVerify cp.layer cp.timeout])
              refine ⟨evs ++ [ExecEvent.checkpointVerify cp.layer cp.timeout] ++ t, ?_⟩
              simp only [execLoop, hx]
              rw [if_neg hcc]
              simp only [hcp, hck]
              rw [if_pos (by simp [hreq]), ht]
              simp [List.append_assoc]

theorem execLoop_checkpoint_verified (env : ExecEnv) (plan : RemediationPlan)
    (hnc : env.ctxCancelled = false) (hcheck : ∀ l, env.checkError l = none) :
    ∀ (steps : List RemediationStep),
      (∀ s ∈ steps, (executeStep env s).1 = none) →
    ∀ (i : Nat) (executed : List RemediationStep) (events : List ExecEvent)
      (s : RemediationStep), s ∈ steps →
    ∀ cp, plan.GetCheckpointAfterStep s.order = some cp →
      ExecEvent.checkpointVerify cp.layer cp.timeout ∈
        (execLoop env plan steps i executed events).2 := by
  intro steps
  induction steps with
  | nil =>
    intro _ i executed events s hs
    exact absurd hs (List.not_mem_nil s)
  | cons step rest ih =>
    intro hok i executed events s hs cp hcp
    rcases hx : executeStep env step with ⟨err, evs⟩
    have herr : err = none := by
      have := hok step (List.mem_cons_self step rest)
      rw [hx] at this
      exact this
    subst herr
    have hcc : ¬(step.waitTime > 0 ∧ env.ctxCancelled = true) := by
      simp [hnc]
    rcases List.mem_cons.mp hs with hseq | hsrest
    · subst hseq
      simp only [execLoop, hx]
      rw [if_neg hcc]
      simp only [hcp, hcheck cp.layer]
      obtain ⟨t, ht⟩ := execLoop_trace_append env plan rest (i + 1) (executed ++ [s])
        (events ++ evs ++ [ExecEvent.checkpointVerify cp.layer cp.timeout])
      rw [ht]
      simp
    · cases hcp0 : plan.GetCheckpointAfterStep step.order with
      | none =>
        simp only [execLoop, hx]
        rw [if_neg hcc]
        simp only [hcp0]
        exact ih (fun s' hs' => hok s' (List.mem_cons_of_mem step hs')) (i + 1)
          (executed ++ [step]) (events ++ evs) s hsrest cp hcp
      | some cp0 =>
        simp only [execLoop, hx]
        rw [if_neg hcc]
        simp only [hcp0, hcheck cp0.layer]
        exact ih (fun s' hs' => hok s' (List.mem_cons_of_mem step hs')) (i + 1)
          (executed ++ [step])
          (events ++ evs ++ [ExecEvent.checkpointVerify cp0.layer cp0.timeout]) s
          hsrest cp hcp

/-- Claim C3 (amended): during `ExecutePlan`, after every step that executes
successfully (no cancellation during its wait, and in a run where every
health check passes), the checkpoint matching that step's order is verified:
a health-checker invocation for the checkpoint's layer under the
checkpoint's timeout appears in the execution trace.  When a step fails and
is non-required the orchestrator continues with the next step and the
checkpoint verification for that step is skipped (see the counterexample). -/
theorem C3_checkpoint_after_success (env : ExecEnv) (plan : RemediationPlan)
    (hnc : env.ctxCancelled = false)
    (hok : ∀ s ∈ plan.steps, (executeStep env s).1 = none)
    (hcheck : ∀ l, env.checkError l = none) :
    ∀ s ∈ plan.steps, ∀ cp, plan.GetCheckpointAfterStep s.order = some cp →
      ExecEvent.checkpointVerify cp.layer cp.timeout ∈ (ExecutePlan env plan).2 :=
  fun s hs cp hcp =>
    execLoop_checkpoint_verified env plan hnc hcheck plan.steps hok 0 [] [] s hs cp hcp

/-- The concrete single-step plan shared by the orchestrator witnesses and
counterexamples: the full pipeline on a crash-looping pod. -/
def planPod : RemediationPlan :=
  GeneratePlan "p1" (DetectLayers "c" "pod crash loop" [⟨"Pod", "p1", "default", ""⟩])

/-- The single (non-required) restart step of `planPod`. -/
def stepPod : RemediationStep :=
  { layer := "application", order := 1, description := "Restart pod default/p1",
    actionType := "restart_pod", target := "default/p1", waitTime := 120000000000,
    required := false, metadata := [("pod", "p1"), ("namespace", "default")] }

/-- The application checkpoint of `planPod`, anchored after step 1. -/
def cpPod : HealthCheckpoint :=
  { layer := "application", afterStep := 1,
    checks := ["pods_running", "deployments_ready", "endpoints_healthy",
      "services_responding"],
    timeout := 600000000000, required := true }

/-- An execution environment whose application remediation fails and whose
health checks all pass, with a live context. -/
def envFail : ExecEnv :=
  ⟨fun _ => some "simulated remediation failure", fun _ => none, false⟩

/-- An execution environment where everything succeeds but the owning
context is already cancelled. -/
def envCancel : ExecEnv :=
  ⟨fun _ => none, fun _ => none, true⟩

/-- Claim C3 witness: in a fully successful run of the concrete pod plan,
the application checkpoint is verified under its 10-minute timeout. -/
theorem C3_witness :
    ExecEvent.checkpointVerify "application" 600000000000 ∈
      (ExecutePlan ⟨fun _ => none, fun _ => none, false⟩ planPod).2 :=
  C3_checkpoint_after_success ⟨fun _ => none, fun _ => none, false⟩ planPod rfl
    (by decide) (fun _ => rfl) stepPod (by decide) cpPod (by decide)

/-- Claim C3 counterexample: when the only step (restart_pod,
required=false) fails, the orchestrator logs and continues — skipping the
checkpoint whose `after_step` matches that step — and the run even ends
with status "success"; the health checker is never invoked, contradicting
the claim that the checkpoint is verified even after a failed non-required
step. -/
theorem C3_counterexample :
    stepPod.required = false ∧
    (executeStep envFail stepPod).1 =
      some "application remediation failed: simulated remediation failure" ∧
    planPod.GetCheckpointAfterStep 1 = some cpPod ∧
    (ExecutePlan envFail planPod).2 =
      [ExecEvent.appRemediate "default" "p1" "p1" "pod_crash_loop"] ∧
    ExecEvent.checkpointVerify cpPod.layer cpPod.timeout ∉
      (ExecutePlan envFail planPod).2 ∧
    (ExecutePlan envFail planPod).1.status = "success" := by
  refine ⟨by decide, by decide, by decide, by decide, by decide, by decide⟩

/-- Claim C4 (amended): `ExecutePlan` on an already-cancelled context still
executes the first step — its remediation action is attempted — and only
then, at the cancellable wait, observes the cancellation; when that first
step succeeds and has a positive wait time the result is status "failed"
with reason "context cancelled" after exactly one executed step, and the
trace is exactly the first step's effects. -/
theorem C4_cancelled_context (env : ExecEnv) (plan : RemediationPlan)
    (s : RemediationStep) (rest : List RemediationStep)
    (hsteps : plan.steps = s :: rest)
    (hcancel : env.ctxCancelled = true)
    (hok : (executeStep env s).1 = none)
    (hwait : s.waitTime > 0) :
    (ExecutePlan env plan).1 =
      { status := "failed", reason := "context cancelled", executedSteps := 1,
        failedStep := none } ∧
    (ExecutePlan env plan).2 = (executeStep env s).2 := by
  unfold ExecutePlan
  rw [hsteps]
  rcases hx : executeStep env s with ⟨err, evs⟩
  have herr : err = none := by rw [hx] at hok; exact hok
  subst herr
  simp only [execLoop, hx]
  rw [if_pos ⟨hwait, hcancel⟩]
  exact ⟨by simp, by simp⟩

/-- Claim C4 witness: the cancelled-context result on the concrete pod plan. -/
theorem C4_witness :
    (ExecutePlan envCancel planPod).1 =
      { status := "failed", reason := "context cancelled", executedSteps := 1,
        failedStep := none } :=
  (C4_cancelled_context envCancel planPod stepPod [] (by decide) rfl (by decide)
    (by decide)).1

/-- Claim C4 counterexample: with an already-cancelled context the result is
indeed failed/"context cancelled", but the first step's remediation action
IS attempted (the application step dispatches the detector and strategy
selector before the cancellation is observed), contradicting the claim that
no step's remediation action is attempted. -/
theorem C4_counterexample :
    (ExecutePlan envCancel planPod).1.status = "failed" ∧
    (ExecutePlan envCancel planPod).1.reason = "context cancelled" ∧
    ExecEvent.appRemediate "default" "p1" "p1" "pod_crash_loop" ∈
      (ExecutePlan envCancel planPod).2 := by
  refine ⟨by decide, by decide, by decide⟩

/-! ### Claims C2, C6, C7: the multi-layer planner -/

theorem exchangePass_perm (cur : Layer) (l : List Layer) :
    List.Perm ((exchangePass cur l).1 :: (exchangePass cur l).2) (cur :: l) := by
  induction l generalizing cur with
  | nil => simp [exchangePass]
  | cons y ys ih =>
    by_cases h : layerPriority cur > layerPriority y
    · rcases hp : exchangePass y ys with ⟨m, ys'⟩
      have heq : exchangePass cur (y :: ys) = (m, cur :: ys') := by
        simp [exchangePass, h, hp]
      rw [heq]
      have ihp := ih y
      rw [hp] at ihp
      exact (List.Perm.swap cur m ys').trans (ihp.cons cur)
    · rcases hp : exchangePass cur ys with ⟨m, ys'⟩
      have heq : exchangePass cur (y :: ys) = (m, y :: ys') := by
        simp [exchangePass, h, hp]
      rw [heq]
      have ihp := ih cur
      rw [hp] at ihp
      exact (List.Perm.swap y m ys').trans ((ihp.cons y).trans (List.Perm.swap cur y ys))

theorem exchangePass_min (cur : Layer) (l : List Layer) :
    layerPriority (exchangePass cur l).1 ≤ layerPriority cur ∧
    ∀ y ∈ (exchangePass cur l).2,
      layerPriority (exchangePass cur l).1 ≤ layerPriority y := by
  induction l generalizing cur with
  | nil => simp [exchangePass]
  | cons y ys ih =>
    by_cases h : layerPriority cur > layerPriority y
    · rcases hp : exchangePass y ys with ⟨m, ys'⟩
      have heq : exchangePass cur (y :: ys) = (m, cur :: ys') := by
        simp [exchangePass, h, hp]
      rw [heq]
      have ihp := ih y
      rw [hp] at ihp
      obtain ⟨ih1, ih2⟩ := ihp
      refine ⟨le_trans ih1 (le_of_lt h), ?_⟩
      intro z hz
      rcases List.mem_cons.mp hz with hz | hz
      · subst hz
        exact le_trans ih1 (le_of_lt h)
      · exact ih2 z hz
    · rcases hp : exchangePass cur ys with ⟨m, ys'⟩
      have heq : exchangePass cur (y :: ys) = (m, y :: ys') := by
        simp [exchangePass, h, hp]
      rw [heq]
      have ihp := ih cur
      rw [hp] at ihp
      obtain ⟨ih1, ih2⟩ := ihp
      refine ⟨ih1, ?_⟩
      intro z hz
      rcases List.mem_cons.mp hz with hz | hz
      · subst hz
        exact le_trans ih1 (le_of_not_lt h)
      · exact ih2 z hz

theorem exchangeSortGo_perm :
    ∀ (fuel : Nat) (l : List Layer), l.length ≤ fuel →
      List.Perm (exchangeSortGo fuel l) l := by
  intro fuel
  induction fuel with
  | zero =>
    intro l hl
    exact List.Perm.refl l
  | succ fuel ih =>
    intro l hl
    cases l with
    | nil => exact List.Perm.refl []
    | cons x xs =>
      show List.Perm ((exchangePass x xs).1 :: exchangeSortGo fuel (exchangePass x xs).2)
        (x :: xs)
      have hlen : (exchangePass x xs).2.length ≤ fuel := by
        rw [exchangePass_length]
        exact Nat.le_of_succ_le_succ hl
      exact ((ih (exchangePass x xs).2 hlen).cons (exchangePass x xs).1).trans
        (exchangePass_perm x xs)

theorem exchangeSortGo_sorted :
    ∀ (fuel : Nat) (l : List Layer), l.length ≤ fuel →
      (exchangeSortGo fuel l).Pairwise
        (fun a b => layerPriority a ≤ layerPriority b) := by
  intro fuel
  induction fuel with
  | zero =>
    intro l hl
    have : l = [] := List.eq_nil_of_length_eq_zero (Nat.le_zero.mp hl)
    subst this
    exact List.Pairwise.nil
  | succ fuel ih =>
    intro l hl
    cases l with
    | nil => exact List.Pairwise.nil
    | cons x xs =>
      show ((exchangePass x xs).1 :: exchangeSortGo fuel (exchangePass x xs).2).Pairwise _
      have hlen : (exchangePass x xs).2.length ≤ fuel := by
        rw [exchangePass_length]
        exact Nat.le_of_succ_le_succ hl
      refine List.Pairwise.cons ?_ (ih (exchangePass x xs).2 hlen)
      intro y hy
      have hy2 : y ∈ (exchangePass x xs).2 :=
        (exchangeSortGo_perm fuel (exchangePass x xs).2 hlen).mem_iff.mp hy
      exact (exchangePass_min x xs).2 y hy2

theorem exchangeSort_perm (l : List Layer) : List.Perm (exchangeSort l) l :=
  exchangeSortGo_perm l.length l (Nat.le_refl _)

theorem exchangeSort_mem (l : List Layer) (a : Layer) :
    a ∈ exchangeSort l ↔ a ∈ l :=
  (exchangeSort_perm l).mem_iff

theorem exchangeSort_sorted (l : List Layer) :
    (exchangeSort l).Pairwise (fun a b => layerPriority a ≤ layerPriority b) :=
  exchangeSortGo_sorted l.length l (Nat.le_refl _)

theorem genInfra_spec :
    ∀ (rs : List Resource) (k : Nat),
      (generateInfrastructureSteps rs k).1.map (fun s => s.order)
        = List.range' k (generateInfrastructureSteps rs k).1.length ∧
      (generateInfrastructureSteps rs k).2
        = k + (generateInfrastructureSteps rs k).1.length ∧
      ∀ s ∈ (generateInfrastructureSteps rs k).1, s.layer = LayerInfrastructure := by
  intro rs
  induction rs with
  | nil =>
    intro k
    simp [generateInfrastructureSteps]
  | cons r rest ih =>
    intro k
    by_cases h1 : r.kind = "Node"
    · obtain ⟨ih1, ih2, ih3⟩ := ih (k + 1)
      rcases hg : generateInfrastructureSteps rest (k + 1) with ⟨s1, o1⟩
      rw [hg] at ih1 ih2 ih3
      simp only [generateInfrastructureSteps, if_pos h1, hg]
      refine ⟨?_, ?_, ?_⟩
      · simp only [List.map_cons, List.length_cons, ih1]
        rw [List.range'_succ]
      · simp only [List.length_cons]
        simp at ih2
        omega
      · intro s hs
        rcases List.mem_cons.mp hs with hs | hs
        · subst hs; rfl
        · exact ih3 s hs
    · by_cases h2 : r.kind = "MachineConfig"
      · obtain ⟨ih1, ih2, ih3⟩ := ih (k + 1)
        rcases hg : generateInfrastructureSteps rest (k + 1) with ⟨s1, o1⟩
        rw [hg] at ih1 ih2 ih3
        simp only [generateInfrastructureSteps, if_neg h1, if_pos h2, hg]
        refine ⟨?_, ?_, ?_⟩
        · simp only [List.map_cons, List.length_cons, ih1]
          rw [List.range'_succ]
        · simp only [List.length_cons]
          simp at ih2
          omega
        · intro s hs
          rcases List.mem_cons.mp hs with hs | hs
          · subst hs; rfl
          · exact ih3 s hs
      · by_cases h3 : r.kind = "MachineConfigPool"
        · obtain ⟨ih1, ih2, ih3⟩ := ih (k + 1)
          rcases hg : generateInfrastructureSteps rest (k + 1) with ⟨s1, o1⟩
          rw [hg] at ih1 ih2 ih3
          simp only [generateInfrastructureSteps, if_neg h1, if_neg h2, if_pos h3, hg]
          refine ⟨?_, ?_, ?_⟩
          · simp only [List.map_cons, List.length_cons, ih1]
            rw [List.range'_succ]
          · simp only [List.length_cons]
            simp at ih2
            omega
          · intro s hs
            rcases List.mem_cons.mp hs with hs | hs
            · subst hs; rfl
            · exact ih3 s hs
        · have heq : generateInfrastructureSteps (r :: rest) k
              = generateInfrastructureSteps rest k := by
            simp [generateInfrastructureSteps, h1, h2, h3]
          rw [heq]
          exact ih k

theorem genApp_spec :
    ∀ (rs : List Resource) (k : Nat),
      (generateApplicationSteps rs k).1.map (fun s => s.order)
        = List.range' k (generateApplicationSteps rs k).1.length ∧
      (generateApplicationSteps rs k).2
        = k + (generateApplicationSteps rs k).1.length ∧
      ∀ s ∈ (generateApplicationSteps rs k).1, s.layer = LayerApplication := by
  intro rs
  induction rs with
  | nil =>
    intro k
    simp [generateApplicationSteps]
  | cons r rest ih =>
    intro k
    by_cases h1 : r.kind = "Pod"
    · obtain ⟨ih1, ih2, ih3⟩ := ih (k + 1)
      rcases hg : generateApplicationSteps rest (k + 1) with ⟨s1, o1⟩
      rw [hg] at ih1 ih2 ih3
      simp only [generateApplicationSteps, if_pos h1, hg]
      refine ⟨?_, ?_, ?_⟩
      · simp only [List.map_cons, List.length_cons, ih1]
        rw [List.range'_succ]
      · simp only [List.length_cons]
        simp at ih2
        omega
      · intro s hs
        rcases List.mem_cons.mp hs with hs | hs
        · subst hs; rfl
        · exact ih3 s hs
    · by_cases h2 : r.kind = "Deployment"
      · obtain ⟨ih1, ih2, ih3⟩ := ih (k + 1)
        rcases hg : generateApplicationSteps rest (k + 1) with ⟨s1, o1⟩
        rw [hg] at ih1 ih2 ih3
        simp only [generateApplicationSteps, if_neg h1, if_pos h2, hg]
        refine ⟨?_, ?_, ?_⟩
        · simp only [List.map_cons, List.length_cons, ih1]
          rw [List.range'_succ]
        · simp only [List.length_cons]
          simp at ih2
          omega
        · intro s hs
          rcases List.mem_cons.mp hs with hs | hs
          · subst hs; rfl
          · exact ih3 s hs
      · by_cases h3 : r.kind = "StatefulSet"
        · obtain ⟨ih1, ih2, ih3⟩ := ih (k + 1)
          rcases hg : generateApplicationSteps rest (k + 1) with ⟨s1, o1⟩
          rw [hg] at ih1 ih2 ih3
          simp only [generateApplicationSteps, if_neg h1, if_neg h2, if_pos h3, hg]
          refine ⟨?_, ?_, ?_⟩
          · simp only [List.map_cons, List.length_cons, ih1]
            rw [List.range'_succ]
          · simp only [List.length_cons]
            simp at ih2
            omega
          · intro s hs
            rcases List.mem_cons.mp hs with hs | hs
            · subst hs; rfl
            · exact ih3 s hs
        · have heq : generateApplicationSteps (r :: rest) k
              = generateApplicationSteps rest k := by
            simp [generateApplicationSteps, h1, h2, h3]
          rw [heq]
          exact ih k

theorem genPlatform_spec :
    ∀ (rs : List Resource) (k : Nat),
      (generatePlatformSteps rs k).1.map (fun s => s.order)
        = List.range' k (generatePlatformSteps rs k).1.length ∧
      (generatePlatformSteps rs k).2
        = k + (generatePlatformSteps rs k).1.length ∧
      ∀ s ∈ (generatePlatformSteps rs k).1, s.layer = LayerPlatform := by
  intro rs
  induction rs with
  | nil =>
    intro k
    simp [generatePlatformSteps]
  | cons r rest ih =>
    intro k
    by_cases hA : strContains r.kind "Operator" = true
    · by_cases hB : r.kind = "ClusterOperator"
      · obtain ⟨ih1, ih2, ih3⟩ := ih (k + 1 + 1)
        rcases hg : generatePlatformSteps rest (k + 1 + 1) with ⟨s1, o1⟩
        rw [hg] at ih1 ih2 ih3
        simp only [generatePlatformSteps, if_pos hA, if_pos hB, hg]
        refine ⟨?_, ?_, ?_⟩
        · simp only [List.cons_append, List.nil_append, List.map_cons, List.length_cons,
            ih1]
          rw [List.range'_succ, List.range'_succ]
        · simp only [List.cons_append, List.nil_append, List.length_cons]
          simp at ih2
          omega
        · intro s hs
          simp only [List.cons_append, List.nil_append] at hs
          rcases List.mem_cons.mp hs with hs | hs
          · subst hs; rfl
          · rcases List.mem_cons.mp hs with hs | hs
            · subst hs; rfl
            · exact ih3 s hs
      · obtain ⟨ih1, ih2, ih3⟩ := ih (k + 1)
        rcases hg : generatePlatformSteps rest (k + 1) with ⟨s1, o1⟩
        rw [hg] at ih1 ih2 ih3
        simp only [generatePlatformSteps, if_pos hA, if_neg hB, hg]
        refine ⟨?_, ?_, ?_⟩
        · simp only [List.cons_append, List.nil_append, List.map_cons, List.length_cons,
            ih1]
          rw [List.range'_succ]
        · simp only [List.cons_append, List.nil_append, List.length_cons]
          simp at ih2
          omega
        · intro s hs
          simp only [List.cons_append, List.nil_append] at hs
          rcases List.mem_cons.mp hs with hs | hs
          · subst hs; rfl
          · exact ih3 s hs
    · by_cases hB : r.kind = "ClusterOperator"
      · obtain ⟨ih1, ih2, ih3⟩ := ih (k + 1)
        rcases hg : generatePlatformSteps rest (k + 1) with ⟨s1, o1⟩
        rw [hg] at ih1 ih2 ih3
        simp only [generatePlatformSteps, if_neg hA, if_pos hB, hg]
        refine ⟨?_, ?_, ?_⟩
        · simp only [List.nil_append, List.cons_append, List.map_cons, List.length_cons,
            ih1]
          rw [List.range'_succ]
        · simp only [List.nil_append, List.cons_append, List.length_cons]
          simp at ih2
          omega
        · intro s hs
          simp only [List.nil_append, List.cons_append] at hs
          rcases List.mem_cons.mp hs with hs | hs
          · subst hs; rfl
          · exact ih3 s hs
      · obtain ⟨ih1, ih2, ih3⟩ := ih k
        rcases hg : generatePlatformSteps rest k with ⟨s1, o1⟩
        rw [hg] at ih1 ih2 ih3
        simp only [generatePlatformSteps, if_neg hA, if_neg hB, hg]
        simp only [List.nil_append]
        exact ⟨ih1, by simp at ih2 ⊢; omega, ih3⟩

theorem genLayer_spec (layer : Layer) (rs : List Resource) (k : Nat) :
    (generateStepsForLayer layer rs k).1.map (fun s => s.order)
      = List.range' k (generateStepsForLayer layer rs k).1.length ∧
    (generateStepsForLayer layer rs k).2
      = k + (generateStepsForLayer layer rs k).1.length ∧
    ∀ s ∈ (generateStepsForLayer layer rs k).1, s.layer = layer := by
  by_cases hI : layer = LayerInfrastructure
  · subst hI
    simp only [generateStepsForLayer, if_pos rfl]
    exact genInfra_spec rs k
  · by_cases hP : layer = LayerPlatform
    · subst hP
      simp only [generateStepsForLayer, if_neg hI, if_pos rfl]
      exact genPlatform_spec rs k
    · by_cases hA : layer = LayerApplication
      · subst hA
        simp only [generateStepsForLayer, if_neg hI, if_neg hP, if_pos rfl]
        exact genApp_spec rs k
      · simp [generateStepsForLayer, hI, hP, hA]

theorem planSteps_spec (issue : LayeredIssue) :
    ∀ (layers : List Layer) (k : Nat),
      (planStepsForLayers issue layers k).1.map (fun s => s.order)
        = List.range' k (planStepsForLayers issue layers k).1.length ∧
      (planStepsForLayers issue layers k).2
        = k + (planStepsForLayers issue layers k).1.length := by
  intro layers
  induction layers with
  | nil =>
    intro k
    simp [planStepsForLayers]
  | cons l ls ih =>
    intro k
    rcases hg1 : generateStepsForLayer l (issue.GetResourcesForLayer l) k with ⟨b1, k1⟩
    rcases hg2 : planStepsForLayers issue ls k1 with ⟨b2, k2⟩
    obtain ⟨h11, h12, _⟩ := genLayer_spec l (issue.GetResourcesForLayer l) k
    rw [hg1] at h11 h12
    obtain ⟨h21, h22⟩ := ih k1
    rw [hg2] at h21 h22
    simp only at h11 h12 h21 h22
    simp only [planStepsForLayers, hg1, hg2]
    constructor
    · simp only [List.map_append, List.length_append, h11, h21, h12]
      have := List.range'_append k b1.length b2.length 1
      simp only [one_mul] at this
      rw [this, Nat.add_comm b2.length b1.length]
    · simp only [List.length_append]
      omega

theorem genInfra_node_mem :
    ∀ (rs : List Resource) (k : Nat) (r : Resource), r ∈ rs → r.kind = "Node" →
      ∃ s ∈ (generateInfrastructureSteps rs k).1,
        s.actionType = "monitor_mco" ∧ s.waitTime = 5 * timeMinute ∧
        s.required = true ∧ s.target = r.name ∧ s.layer = LayerInfrastructure := by
  intro rs
  induction rs with
  | nil =>
    intro k r hr
    exact absurd hr (List.not_mem_nil r)
  | cons a rest ih =>
    intro k r hr hkind
    rcases List.mem_cons.mp hr with hr | hr
    · subst hr
      rcases hg : generateInfrastructureSteps rest (k + 1) with ⟨s1, o1⟩
      simp only [generateInfrastructureSteps, if_pos hkind, hg]
      refine ⟨_, List.mem_cons_self _ _, rfl, rfl, rfl, rfl, rfl⟩
    · by_cases h1 : a.kind = "Node"
      · rcases hg : generateInfrastructureSteps rest (k + 1) with ⟨s1, o1⟩
        obtain ⟨s, hs, hprops⟩ := ih (k + 1) r hr hkind
        rw [hg] at hs
        simp only [generateInfrastructureSteps, if_pos h1, hg]
        exact ⟨s, List.mem_cons_of_mem _ hs, hprops⟩
      · by_cases h2 : a.kind = "MachineConfig"
        · rcases hg : generateInfrastructureSteps rest (k + 1) with ⟨s1, o1⟩
          obtain ⟨s, hs, hprops⟩ := ih (k + 1) r hr hkind
          rw [hg] at hs
          simp only [generateInfrastructureSteps, if_neg h1, if_pos h2, hg]
          exact ⟨s, List.mem_cons_of_mem _ hs, hprops⟩
        · by_cases h3 : a.kind = "MachineConfigPool"
          · rcases hg : generateInfrastructureSteps rest (k + 1) with ⟨s1, o1⟩
            obtain ⟨s, hs, hprops⟩ := ih (k + 1) r hr hkind
            rw [hg] at hs
            simp only [generateInfrastructureSteps, if_neg h1, if_neg h2, if_pos h3, hg]
            exact ⟨s, List.mem_cons_of_mem _ hs, hprops⟩
          · have heq : generateInfrastructureSteps (a :: rest) k
                = generateInfrastructureSteps rest k := by
              simp [generateInfrastructureSteps, h1, h2, h3]
            rw [heq]
            exact ih k r hr hkind

theorem planSteps_node_step (issue : LayeredIssue) :
    ∀ (layers : List Layer) (k : Nat) (r : Resource),
      LayerInfrastructure ∈ layers →
      r ∈ issue.GetResourcesForLayer LayerInfrastructure → r.kind = "Node" →
      ∃ s ∈ (planStepsForLayers issue layers k).1,
        s.actionType = "monitor_mco" ∧ s.waitTime = 5 * timeMinute ∧
        s.required = true ∧ s.target = r.name ∧ s.layer = LayerInfrastructure := by
  intro layers
  induction layers with
  | nil =>
    intro k r hmem
    exact absurd hmem (List.not_mem_nil _)
  | cons l ls ih =>
    intro k r hmem hres hkind
    rcases hg1 : generateStepsForLayer l (issue.GetResourcesForLayer l) k with ⟨b1, k1⟩
    rcases hg2 : planStepsForLayers issue ls k1 with ⟨b2, k2⟩
    rcases List.mem_cons.mp hmem with hl | hl
    · obtain ⟨s, hs, hprops⟩ :=
        genInfra_node_mem (issue.GetResourcesForLayer LayerInfrastructure) k r hres hkind
      have hb1 : s ∈ b1 := by
        have : generateStepsForLayer l (issue.GetResourcesForLayer l) k
            = generateInfrastructureSteps
              (issue.GetResourcesForLayer LayerInfrastructure) k := by
          rw [← hl]
          simp [generateStepsForLayer]
        rw [this] at hg1
        rw [hg1] at hs
        exact hs
      refine ⟨s, ?_, hprops⟩
      simp only [planStepsForLayers, hg1, hg2]
      exact List.mem_append_left _ hb1
    · obtain ⟨s, hs, hprops⟩ := ih k1 r hl hres hkind
      rw [hg2] at hs
      refine ⟨s, ?_, hprops⟩
      simp only [planStepsForLayers, hg1, hg2]
      exact List.mem_append_right _ hs

theorem foldl_AddStep (l : List RemediationStep) :
    ∀ (p : RemediationPlan), (∀ s ∈ l, s.order ≠ 0) →
      l.foldl RemediationPlan.AddStep p = { p with steps := p.steps ++ l } := by
  induction l with
  | nil =>
    intro p _
    show p = _
    simp
  | cons s rest ih =>
    intro p hord
    show rest.foldl RemediationPlan.AddStep (p.AddStep s) = _
    have hstep : p.AddStep s = { p with steps := p.steps ++ [s] } := by
      unfold RemediationPlan.AddStep
      rw [if_neg (hord s (List.mem_cons_self s rest))]
    rw [hstep, ih _ (fun s' hs' => hord s' (List.mem_cons_of_mem s hs'))]
    simp

theorem foldl_AddCheckpoint (l : List HealthCheckpoint) :
    ∀ (p : RemediationPlan),
      l.foldl RemediationPlan.AddCheckpoint p = { p with checkpoints := p.checkpoints ++ l } := by
  induction l with
  | nil =>
    intro p
    show p = _
    simp
  | cons c rest ih =>
    intro p
    show rest.foldl RemediationPlan.AddCheckpoint (p.AddCheckpoint c) = _
    rw [ih]
    simp [RemediationPlan.AddCheckpoint]

theorem foldl_AddRollbackStep (l : List RemediationStep) :
    ∀ (p : RemediationPlan),
      l.foldl RemediationPlan.AddRollbackStep p
        = { p with rollbackSteps := p.rollbackSteps ++ l } := by
  induction l with
  | nil =>
    intro p
    show p = _
    simp
  | cons s rest ih =>
    intro p
    show rest.foldl RemediationPlan.AddRollbackStep (p.AddRollbackStep s) = _
    rw [ih]
    simp [RemediationPlan.AddRollbackStep]

/-- Characterisation of `GeneratePlan`: the steps are the per-layer blocks
starting at order 1, the checkpoints are generated from the sorted layers
and those steps, and the rollback steps mirror the steps. -/
theorem GeneratePlan_eq (planID : String) (issue : LayeredIssue) :
    GeneratePlan planID issue =
      { id := planID, issueID := issue.id,
        layers := exchangeSort issue.affectedLayers,
        steps := (planStepsForLayers issue (exchangeSort issue.affectedLayers) 1).1,
        checkpoints := generateCheckpoints (exchangeSort issue.affectedLayers)
          (planStepsForLayers issue (exchangeSort issue.affectedLayers) 1).1,
        rollbackSteps := generateRollbackSteps
          (planStepsForLayers issue (exchangeSort issue.affectedLayers) 1).1,
        status := "pending", currentStep := 0 } := by
  have hords : ∀ s ∈ (planStepsForLayers issue (exchangeSort issue.affectedLayers) 1).1,
      s.order ≠ 0 := by
    intro s hs
    obtain ⟨h1, _⟩ := planSteps_spec issue (exchangeSort issue.affectedLayers) 1
    have hmem : s.order ∈ (planStepsForLayers issue
        (exchangeSort issue.affectedLayers) 1).1.map (fun s => s.order) :=
      List.mem_map_of_mem _ hs
    rw [h1] at hmem
    have := List.mem_range'_1.mp hmem
    omega
  unfold GeneratePlan
  rcases hps : planStepsForLayers issue (LayeredIssue.GetLayersByPriority issue) 1
    with ⟨allSteps, kf⟩
  have hL : LayeredIssue.GetLayersByPriority issue = exchangeSort issue.affectedLayers :=
    rfl
  rw [hL] at hps
  rw [hps] at hords
  simp only at hords
  simp only [LayeredIssue.GetLayersByPriority] at *
  simp only [hps]
  rw [foldl_AddStep allSteps _ hords]
  simp only [NewRemediationPlan, List.nil_append]
  rw [foldl_AddCheckpoint, foldl_AddRollbackStep]
  simp [hps]

theorem getLast?_cons_some {α : Type} (a : α) (l : List α) (x : α)
    (h : l.getLast? = some x) : (a :: l).getLast? = some x := by
  cases l with
  | nil => simp at h
  | cons b t =>
    rw [List.getLast?_cons_cons]
    exact h

theorem mem_of_getLast? {α : Type} :
    ∀ (l : List α) (x : α), l.getLast? = some x → x ∈ l := by
  intro l
  induction l with
  | nil =>
    intro x h
    simp at h
  | cons a t ih =>
    intro x h
    cases t with
    | nil =>
      simp only [List.getLast?_singleton, Option.some.injEq] at h
      exact h ▸ List.mem_singleton_self a
    | cons b t' =>
      rw [List.getLast?_cons_cons] at h
      exact List.mem_cons_of_mem a (ih x h)

theorem pairwise_lt_le_getLast :
    ∀ (l : List RemediationStep),
      l.Pairwise (fun a b => a.order < b.order) →
      ∀ x ∈ l, ∀ y, l.getLast? = some y → x.order ≤ y.order := by
  intro l
  induction l with
  | nil =>
    intro _ x hx
    exact absurd hx (List.not_mem_nil x)
  | cons a t ih =>
    intro hp x hx y hy
    obtain ⟨ha, ht⟩ := List.pairwise_cons.mp hp
    rcases List.mem_cons.mp hx with hx | hx
    · subst hx
      cases t with
      | nil =>
        simp only [List.getLast?_singleton, Option.some.injEq] at hy
        exact hy ▸ Nat.le_refl _
      | cons b t' =>
        rw [List.getLast?_cons_cons] at hy
        exact Nat.le_of_lt (ha y (mem_of_getLast? _ y hy))
    · cases t with
      | nil => exact absurd hx (List.not_mem_nil x)
      | cons b t' =>
        rw [List.getLast?_cons_cons] at hy
        exact ih ht x hx y hy

theorem lastStepPerLayer_lookup :
    ∀ (steps : List RemediationStep) (m0 : List (Layer × Nat)) (ℓ : Layer),
      alookup (steps.foldl (fun m s => aset m s.layer s.order) m0) ℓ =
        match (steps.filter (fun s => s.layer == ℓ)).getLast? with
        | some s => some s.order
        | none => alookup m0 ℓ := by
  intro steps
  induction steps with
  | nil =>
    intro m0 ℓ
    simp
  | cons s rest ih =>
    intro m0 ℓ
    show alookup (rest.foldl _ (aset m0 s.layer s.order)) ℓ = _
    rw [ih (aset m0 s.layer s.order) ℓ]
    by_cases hm : s.layer = ℓ
    · have hfil : (s :: rest).filter (fun s => s.layer == ℓ)
          = s :: rest.filter (fun s => s.layer == ℓ) := by
        simp [List.filter_cons, hm]
      rw [hfil]
      cases h2 : (rest.filter (fun s => s.layer == ℓ)).getLast? with
      | some s' =>
        rw [getLast?_cons_some _ _ _ h2]
      | none =>
        have : rest.filter (fun s => s.layer == ℓ) = [] :=
          List.getLast?_eq_none_iff.mp h2
        rw [this]
        simp only [List.getLast?_singleton]
        rw [← hm]
        exact alookup_aset_self m0 s.layer s.order
    · have hfil : (s :: rest).filter (fun s => s.layer == ℓ)
          = rest.filter (fun s => s.layer == ℓ) := by
        simp [List.filter_cons, hm]
      rw [hfil]
      cases h2 : (rest.filter (fun s => s.layer == ℓ)).getLast? with
      | some s' => rfl
      | none =>
        exact alookup_aset_ne m0 s.layer ℓ s.order hm

theorem mem_generateCheckpoints (layers : List Layer) (steps : List RemediationStep)
    (cp : HealthCheckpoint) (hcp : cp ∈ generateCheckpoints layers steps) :
    ∃ ℓ ∈ layers, ∃ o, alookup (lastStepPerLayer steps) ℓ = some o ∧
      cp.layer = ℓ ∧ cp.afterStep = o ∧ cp.timeout = 10 * timeMinute ∧
      cp.required = true := by
  simp only [generateCheckpoints, List.mem_filterMap] at hcp
  obtain ⟨ℓ, hl, hf⟩ := hcp
  cases halo : alookup (lastStepPerLayer steps) ℓ with
  | none =>
    rw [halo] at hf
    simp at hf
  | some o =>
    rw [halo] at hf
    simp only [Option.some.injEq] at hf
    exact ⟨ℓ, hl, o, halo, by rw [← hf], by rw [← hf], by rw [← hf], by rw [← hf]⟩

theorem forall₂_map_map {α β γ : Type} (l : List α) (f : α → β) (g : α → γ)
    (R : β → γ → Prop) (h : ∀ x ∈ l, R (f x) (g x)) :
    List.Forall₂ R (l.map f) (l.map g) := by
  induction l with
  | nil => exact List.Forall₂.nil
  | cons a t ih =>
    exact List.Forall₂.cons (h a (List.mem_cons_self a t))
      (ih (fun x hx => h x (List.mem_cons_of_mem a hx)))

theorem rollback_mirror (steps : List RemediationStep) :
    List.Forall₂ (fun r s => r.actionType = "rollback_" ++ s.actionType ∧
        r.target = s.target ∧ r.waitTime = s.waitTime ∧ r.required = s.required)
      (generateRollbackSteps steps) steps.reverse := by
  have hrev : (steps.enum.reverse).map Prod.snd = steps.reverse := by
    rw [List.map_reverse, List.enum_map_snd]
  rw [← hrev]
  unfold generateRollbackSteps
  exact forall₂_map_map _ _ _ _ (fun p _ => ⟨rfl, rfl, rfl, rfl⟩)

theorem alookup_lastStep_getLast (steps : List RemediationStep) (ℓ : Layer) (o : Nat)
    (h : alookup (lastStepPerLayer steps) ℓ = some o) :
    ∃ s, (steps.filter (fun st => st.layer == ℓ)).getLast? = some s ∧ s.order = o := by
  have hlk : alookup (lastStepPerLayer steps) ℓ =
      (match (steps.filter (fun st => st.layer == ℓ)).getLast? with
       | some s => some s.order
       | none => alookup ([] : List (Layer × Nat)) ℓ) :=
    lastStepPerLayer_lookup steps [] ℓ
  rw [h] at hlk
  cases h2 : (steps.filter (fun st => st.layer == ℓ)).getLast? with
  | some s =>
    rw [h2] at hlk
    simp only [Option.some.injEq] at hlk
    exact ⟨s, rfl, hlk.symm⟩
  | none =>
    rw [h2] at hlk
    simp [alookup] at hlk

theorem generateCheckpoints_pairwise (layers : List Layer) (steps : List RemediationStep)
    (h : layers.Pairwise (fun a b => layerPriority a ≤ layerPriority b)) :
    (generateCheckpoints layers steps).Pairwise
      (fun a b => layerPriority a.layer ≤ layerPriority b.layer) := by
  have hlayer : ∀ (a : Layer) (cp : HealthCheckpoint),
      cp ∈ generateCheckpoints [a] steps → cp.layer = a := by
    intro a cp hcp
    obtain ⟨ℓ, hl, o, _, hcl, _⟩ := mem_generateCheckpoints [a] steps cp hcp
    rw [hcl]
    simpa using hl
  simp only [generateCheckpoints]
  rw [List.pairwise_filterMap]
  refine List.Pairwise.imp ?_ h
  intro a b hab
  intro cp hcp cp' hcp'
  have ha : cp ∈ generateCheckpoints [a] steps := by
    simp only [generateCheckpoints]
    rw [List.mem_filterMap]
    exact ⟨a, List.mem_singleton_self a, Option.mem_def.mp hcp⟩
  have hb : cp' ∈ generateCheckpoints [b] steps := by
    simp only [generateCheckpoints]
    rw [List.mem_filterMap]
    exact ⟨b, List.mem_singleton_self b, Option.mem_def.mp hcp'⟩
  rw [hlayer a cp ha, hlayer b cp' hb]
  exact hab

/-- C2: for every LayeredIssue, the plan produced by GeneratePlan has step
orders forming exactly the sequence 1..N, every checkpoint's afterStep equal
to the order of the last step of that checkpoint's layer (hence a valid step
order, and an upper bound on the orders of all same-layer steps), checkpoints
emitted in layer-priority order, and rollbackSteps a reverse-ordered mirror of
steps with actionType prefixed by "rollback_" and equal target, waitTime and
required flag. -/
theorem C2_plan_invariants (planID : String) (issue : LayeredIssue) :
    (GeneratePlan planID issue).steps.map (fun s => s.order)
        = List.range' 1 (GeneratePlan planID issue).steps.length ∧
    (∀ cp ∈ (GeneratePlan planID issue).checkpoints,
      ∃ s, ((GeneratePlan planID issue).steps.filter
              (fun st => st.layer == cp.layer)).getLast? = some s ∧
        cp.afterStep = s.order ∧
        cp.afterStep ∈ (GeneratePlan planID issue).steps.map (fun st => st.order) ∧
        ∀ x ∈ (GeneratePlan planID issue).steps, x.layer = cp.layer →
          x.order ≤ cp.afterStep) ∧
    (GeneratePlan planID issue).checkpoints.Pairwise
      (fun a b => layerPriority a.layer ≤ layerPriority b.layer) ∧
    List.Forall₂ (fun r s => r.actionType = "rollback_" ++ s.actionType ∧
        r.target = s.target ∧ r.waitTime = s.waitTime ∧ r.required = s.required)
      (GeneratePlan planID issue).rollbackSteps
      (GeneratePlan planID issue).steps.reverse := by
  simp only [GeneratePlan_eq]
  refine ⟨(planSteps_spec issue (exchangeSort issue.affectedLayers) 1).1, ?_, ?_,
    rollback_mirror _⟩
  · intro cp hcp
    obtain ⟨ℓ, hl, o, halo, hcl, has, hto, hreq⟩ :=
      mem_generateCheckpoints _ _ cp hcp
    obtain ⟨s, hgl, hso⟩ := alookup_lastStep_getLast _ ℓ o halo
    have hsf : s ∈ (planStepsForLayers issue (exchangeSort issue.affectedLayers) 1).1.filter
        (fun st => st.layer == ℓ) := mem_of_getLast? _ s hgl
    have hsmem := (List.mem_filter.mp hsf).1
    rw [hcl, has]
    refine ⟨s, hgl, hso.symm, ?_, ?_⟩
    · rw [← hso]
      exact List.mem_map_of_mem _ hsmem
    · intro x hx hxl
      have h1 := (planSteps_spec issue (exchangeSort issue.affectedLayers) 1).1
      have h2 : ((planStepsForLayers issue (exchangeSort issue.affectedLayers) 1).1.map
          (fun s => s.order)).Pairwise (fun a b => a < b) := by
        rw [h1]
        exact List.pairwise_lt_range' 1 _
      have hpw := List.pairwise_map.mp h2
      have hfpw := List.Pairwise.filter (fun st => st.layer == ℓ) hpw
      have hxf : x ∈ (planStepsForLayers issue (exchangeSort issue.affectedLayers) 1).1.filter
          (fun st => st.layer == ℓ) := List.mem_filter.mpr ⟨hx, by simp [hxl]⟩
      have hle := pairwise_lt_le_getLast _ hfpw x hxf s hgl
      rw [← hso]
      exact hle
  · exact generateCheckpoints_pairwise _ _ (exchangeSort_sorted issue.affectedLayers)

/-- A concrete two-layer issue (infrastructure + application) used to
instantiate the plan invariants. -/
def issueC2 : LayeredIssue :=
  DetectLayers "c2" "node memory pressure causing pod crash loops"
    [⟨"Node", "n1", "", "memory pressure"⟩, ⟨"Pod", "p1", "default", "crashloop"⟩]

theorem C2_witness :
    (GeneratePlan "plan-1" issueC2).steps.map (fun s => s.order)
        = List.range' 1 (GeneratePlan "plan-1" issueC2).steps.length ∧
    (∀ cp ∈ (GeneratePlan "plan-1" issueC2).checkpoints,
      ∃ s, ((GeneratePlan "plan-1" issueC2).steps.filter
              (fun st => st.layer == cp.layer)).getLast? = some s ∧
        cp.afterStep = s.order ∧
        cp.afterStep ∈ (GeneratePlan "plan-1" issueC2).steps.map (fun st => st.order) ∧
        ∀ x ∈ (GeneratePlan "plan-1" issueC2).steps, x.layer = cp.layer →
          x.order ≤ cp.afterStep) ∧
    (GeneratePlan "plan-1" issueC2).checkpoints.Pairwise
      (fun a b => layerPriority a.layer ≤ layerPriority b.layer) ∧
    List.Forall₂ (fun r s => r.actionType = "rollback_" ++ s.actionType ∧
        r.target = s.target ∧ r.waitTime = s.waitTime ∧ r.required = s.required)
      (GeneratePlan "plan-1" issueC2).rollbackSteps
      (GeneratePlan "plan-1" issueC2).steps.reverse :=
  C2_plan_invariants "plan-1" issueC2

/-- Number of infrastructure steps per resource list: one per resource whose
kind is Node, MachineConfig or MachineConfigPool. -/
def infraStepCount (rs : List Resource) : Nat :=
  rs.countP (fun r => r.kind == "Node" || r.kind == "MachineConfig" ||
    r.kind == "MachineConfigPool")

/-- Number of platform steps per resource list: one per resource whose kind
contains "Operator" PLUS one per resource whose kind equals "ClusterOperator"
(both branches of `generatePlatformSteps` fire for a ClusterOperator). -/
def platformStepCount (rs : List Resource) : Nat :=
  rs.countP (fun r => strContains r.kind "Operator") +
    rs.countP (fun r => r.kind == "ClusterOperator")

/-- Number of application steps per resource list: one per resource whose
kind is Pod, Deployment or StatefulSet. -/
def appStepCount (rs : List Resource) : Nat :=
  rs.countP (fun r => r.kind == "Pod" || r.kind == "Deployment" ||
    r.kind == "StatefulSet")

/-- Steps contributed by one layer of an issue in `GeneratePlan`. -/
def layerStepCount (issue : LayeredIssue) (ℓ : Layer) : Nat :=
  if ℓ = LayerInfrastructure then infraStepCount (issue.GetResourcesForLayer ℓ)
  else if ℓ = LayerPlatform then platformStepCount (issue.GetResourcesForLayer ℓ)
  else if ℓ = LayerApplication then appStepCount (issue.GetResourcesForLayer ℓ)
  else 0

theorem genInfra_count :
    ∀ (rs : List Resource) (k : Nat),
      (generateInfrastructureSteps rs k).1.length = infraStepCount rs := by
  intro rs
  induction rs with
  | nil =>
    intro k
    simp [generateInfrastructureSteps, infraStepCount]
  | cons r rest ih =>
    intro k
    by_cases h1 : r.kind = "Node"
    · rcases hg : generateInfrastructureSteps rest (k + 1) with ⟨b, o⟩
      have hb := ih (k + 1)
      rw [hg] at hb
      simp only at hb
      simp only [generateInfrastructureSteps, h1, if_true, hg]
      simp [infraStepCount, List.countP_cons, h1] at hb ⊢
      omega
    · by_cases h2 : r.kind = "MachineConfig"
      · rcases hg : generateInfrastructureSteps rest (k + 1) with ⟨b, o⟩
        have hb := ih (k + 1)
        rw [hg] at hb
        simp only at hb
        simp only [generateInfrastructureSteps, h1, h2, if_true, if_false, hg]
        simp [infraStepCount, List.countP_cons, h1, h2] at hb ⊢
        omega
      · by_cases h3 : r.kind = "MachineConfigPool"
        · rcases hg : generateInfrastructureSteps rest (k + 1) with ⟨b, o⟩
          have hb := ih (k + 1)
          rw [hg] at hb
          simp only at hb
          simp only [generateInfrastructureSteps, h1, h2, h3, if_true, if_false, hg]
          simp [infraStepCount, List.countP_cons, h1, h2, h3] at hb ⊢
          omega
        · have hb := ih k
          simp only [generateInfrastructureSteps, h1, h2, h3, if_false]
          simp [infraStepCount, List.countP_cons, h1, h2, h3] at hb ⊢
          exact hb

theorem genPlatform_count :
    ∀ (rs : List Resource) (k : Nat),
      (generatePlatformSteps rs k).1.length = platformStepCount rs := by
  intro rs
  induction rs with
  | nil =>
    intro k
    simp [generatePlatformSteps, platformStepCount]
  | cons r rest ih =>
    intro k
    by_cases h2 : r.kind = "ClusterOperator"
    · have hsc : strContains "ClusterOperator" "Operator" = true := by decide
      rcases hg : generatePlatformSteps rest (k + 1 + 1) with ⟨b, o⟩
      have hb := ih (k + 1 + 1)
      rw [hg] at hb
      simp only at hb
      simp only [generatePlatformSteps, h2, hsc, reduceIte, if_true, hg]
      simp [platformStepCount, List.countP_cons, h2, hsc] at hb ⊢
      omega
    · by_cases h1 : strContains r.kind "Operator"
      · rcases hg : generatePlatformSteps rest (k + 1) with ⟨b, o⟩
        have hb := ih (k + 1)
        rw [hg] at hb
        simp only at hb
        simp only [generatePlatformSteps, h1, h2, if_true, reduceIte, hg]
        simp [platformStepCount, List.countP_cons, h1, h2] at hb ⊢
        omega
      · rcases hg : generatePlatformSteps rest k with ⟨b, o⟩
        have hb := ih k
        rw [hg] at hb
        simp only at hb
        have h1' : strContains r.kind "Operator" = false := by
          cases hc : strContains r.kind "Operator" with
          | false => rfl
          | true => exact absurd hc h1
        simp only [generatePlatformSteps, h1', h2, reduceIte, Bool.false_eq_true,
          if_false, List.nil_append, hg]
        simp [platformStepCount, List.countP_cons, h1', h2] at hb ⊢
        omega

theorem genApp_count :
    ∀ (rs : List Resource) (k : Nat),
      (generateApplicationSteps rs k).1.length = appStepCount rs := by
  intro rs
  induction rs with
  | nil =>
    intro k
    simp [generateApplicationSteps, appStepCount]
  | cons r rest ih =>
    intro k
    by_cases h1 : r.kind = "Pod"
    · rcases hg : generateApplicationSteps rest (k + 1) with ⟨b, o⟩
      have hb := ih (k + 1)
      rw [hg] at hb
      simp only at hb
      simp only [generateApplicationSteps, h1, if_true, hg]
      simp [appStepCount, List.countP_cons, h1] at hb ⊢
      omega
    · by_cases h2 : r.kind = "Deployment"
      · rcases hg : generateApplicationSteps rest (k + 1) with ⟨b, o⟩
        have hb := ih (k + 1)
        rw [hg] at hb
        simp only at hb
        simp only [generateApplicationSteps, h1, h2, if_true, if_false, hg]
        simp [appStepCount, List.countP_cons, h1, h2] at hb ⊢
        omega
      · by_cases h3 : r.kind = "StatefulSet"
        · rcases hg : generateApplicationSteps rest (k + 1) with ⟨b, o⟩
          have hb := ih (k + 1)
          rw [hg] at hb
          simp only at hb
          simp only [generateApplicationSteps, h1, h2, h3, if_true, if_false, hg]
          simp [appStepCount, List.countP_cons, h1, h2, h3] at hb ⊢
          omega
        · have hb := ih k
          simp only [generateApplicationSteps, h1, h2, h3, if_false]
          simp [appStepCount, List.countP_cons, h1, h2, h3] at hb ⊢
          exact hb

theorem genLayer_count (issue : LayeredIssue) (l : Layer) (k : Nat) :
    (generateStepsForLayer l (issue.GetResourcesForLayer l) k).1.length =
      layerStepCount issue l := by
  unfold generateStepsForLayer layerStepCount
  by_cases hi : l = LayerInfrastructure
  · rw [if_pos hi, if_pos hi]
    exact genInfra_count _ k
  · rw [if_neg hi, if_neg hi]
    by_cases hp : l = LayerPlatform
    · rw [if_pos hp, if_pos hp]
      exact genPlatform_count _ k
    · rw [if_neg hp, if_neg hp]
      by_cases ha : l = LayerApplication
      · rw [if_pos ha, if_pos ha]
        exact genApp_count _ k
      · rw [if_neg ha, if_neg ha]
        rfl

theorem planSteps_length (issue : LayeredIssue) :
    ∀ (layers : List Layer) (k : Nat),
      (planStepsForLayers issue layers k).1.length =
        (layers.map (fun l => layerStepCount issue l)).sum := by
  intro layers
  induction layers with
  | nil =>
    intro k
    simp [planStepsForLayers]
  | cons l rest ih =>
    intro k
    rcases hg1 : generateStepsForLayer l (issue.GetResourcesForLayer l) k with ⟨b1, k1⟩
    rcases hg2 : planStepsForLayers issue rest k1 with ⟨b2, k2⟩
    have hb2 := ih k1
    rw [hg2] at hb2
    simp only at hb2
    have hb1 : b1.length = layerStepCount issue l := by
      have := genLayer_count issue l k
      rw [hg1] at this
      simpa using this
    simp only [planStepsForLayers, hg1, hg2]
    simp only [List.length_append, List.map_cons, List.sum_cons]
    rw [hb2, hb1]

/-- C6: the number of steps GeneratePlan emits is the sum over the affected
layers (in priority order) of the per-layer step count; that count is one per
matching-kind resource for the infrastructure and application layers, but for
the platform layer it is one step per resource whose kind contains "Operator"
PLUS one per ClusterOperator resource — a ClusterOperator matches both
platform branches and therefore yields TWO steps, not one. -/
theorem C6_step_count (planID : String) (issue : LayeredIssue) :
    (GeneratePlan planID issue).steps.length =
      ((issue.GetLayersByPriority).map (fun l => layerStepCount issue l)).sum := by
  simp only [GeneratePlan_eq, LayeredIssue.GetLayersByPriority]
  exact planSteps_length issue (exchangeSort issue.affectedLayers) 1

/-- A concrete issue whose only impacted resource is one ClusterOperator. -/
def issueC6 : LayeredIssue :=
  DetectLayers "c6" "clusteroperator degraded"
    [⟨"ClusterOperator", "dns", "", "degraded"⟩]

theorem C6_counterexample :
    (issueC6.GetResourcesForLayer LayerPlatform).length = 1 ∧
    ((issueC6.GetResourcesForLayer LayerPlatform).filter
       (fun r => r.kind == "ClusterOperator")).length = 1 ∧
    (GeneratePlan "p6" issueC6).steps.length = 2 ∧
    ((GeneratePlan "p6" issueC6).steps.filter
       (fun s => s.layer == LayerPlatform)).length = 2 ∧
    (GeneratePlan "p6" issueC6).steps.length ≠
      (issueC6.GetResourcesForLayer LayerPlatform).length := by
  decide

/-- C7: for every LayeredIssue whose infrastructure-layer impacted resources
include a resource of kind Node, the generated plan contains a required step
for that node with a 5-minute wait — but its actionType is "monitor_mco"
(the code monitors the MCO rollout for the node), not "monitor_node_update". -/
theorem C7_node_step (planID : String) (issue : LayeredIssue) (r : Resource)
    (hmem : LayerInfrastructure ∈ issue.affectedLayers)
    (hr : r ∈ issue.GetResourcesForLayer LayerInfrastructure)
    (hk : r.kind = "Node") :
    ∃ s ∈ (GeneratePlan planID issue).steps,
      s.actionType = "monitor_mco" ∧ s.waitTime = 5 * timeMinute ∧
      s.required = true ∧ s.target = r.name ∧ s.layer = LayerInfrastructure := by
  simp only [GeneratePlan_eq]
  exact planSteps_node_step issue (exchangeSort issue.affectedLayers) 1 r
    ((exchangeSort_mem issue.affectedLayers LayerInfrastructure).mpr hmem) hr hk

/-- A concrete issue whose infrastructure layer contains one Node resource. -/
def issueC7 : LayeredIssue :=
  DetectLayers "c7" "node not ready memory pressure"
    [⟨"Node", "n1", "", "not ready"⟩]

theorem C7_witness :
    LayerInfrastructure ∈ issueC7.affectedLayers ∧
    (⟨"Node", "n1", "", "not ready"⟩ : Resource) ∈
      issueC7.GetResourcesForLayer LayerInfrastructure ∧
    ∃ s ∈ (GeneratePlan "p7" issueC7).steps,
      s.actionType = "monitor_mco" ∧ s.waitTime = 5 * timeMinute ∧
      s.required = true ∧ s.target = "n1" ∧ s.layer = LayerInfrastructure :=
  ⟨by decide, by decide,
    C7_node_step "p7" issueC7 ⟨"Node", "n1", "", "not ready"⟩
      (by decide) (by decide) rfl⟩

theorem C7_counterexample :
    (⟨"Node", "n1", "", "not ready"⟩ : Resource) ∈
      issueC7.GetResourcesForLayer LayerInfrastructure ∧
    ((GeneratePlan "p7" issueC7).steps.filter
       (fun s => s.actionType == "monitor_node_update")) = [] ∧
    ((GeneratePlan "p7" issueC7).steps.filter
       (fun s => s.actionType == "monitor_mco")).length = 1 := by
  decide
